import Mathlib

/-!
Shallow embedding of the user-API HTTP views in
`openedx/core/djangoapps/user_api/views.py`: the registration form
description builder (`RegistrationView.__init__`, `.get`,
`._apply_third_party_auth_overrides`), the registration submission handler
(`RegistrationView.post`), and the email opt-in preference endpoint
(`UpdateEmailOptInPreference.post`).

Python dictionaries keyed by strings are modelled as association lists
(first matching key wins, as the lookup helpers below implement).  External
collaborators that are not part of the source tree (`check_account_exists`,
`create_account_with_params`, the course-locator parser) are passed in as
function parameters, so the theorems quantify over their behaviour.
-/

namespace UserApi

/-- Lookup in an association list keyed by strings; mirrors `dict.get`. -/
def assocLookup {α : Type} : List (String × α) → String → Option α
  | [], _ => none
  | (k, v) :: rest, key => if k = key then some v else assocLookup rest key

/-- Lookup with a default; mirrors `dict.get(key, default)`. -/
def assocLookupD {α : Type} (m : List (String × α)) (key : String) (d : α) : α :=
  (assocLookup m key).getD d

/-- Key assignment; mirrors `d[key] = v` (replace the first binding or append). -/
def assocSet {α : Type} : List (String × α) → String → α → List (String × α)
  | [], key, v => [(key, v)]
  | (k, w) :: rest, key, v =>
      if k = key then (k, v) :: rest else (k, w) :: assocSet rest key v

/-- Key membership; mirrors `key in d`. -/
def assocHasKey {α : Type} (m : List (String × α)) (key : String) : Bool :=
  (assocLookup m key).isSome

/-- Update a binding by merging with the previous value (insert when absent);
used for `FormDescription.override_field_properties`. -/
def assocUpdate {α : Type} (merge : α → α → α) :
    List (String × α) → String → α → List (String × α)
  | [], key, v => [(key, v)]
  | (k, w) :: rest, key, v =>
      if k = key then (k, merge w v) :: rest
      else (k, w) :: assocUpdate merge rest key v

/-- Boolean string-list membership; mirrors Python `x in [...]`. -/
def strMem : List String → String → Bool
  | [], _ => false
  | y :: rest, x => if y = x then true else strMem rest x

/-- `set(a) == set(b)` on string lists. -/
def sameSet (a b : List String) : Bool :=
  a.all (fun x => strMem b x) && b.all (fun x => strMem a x)

/-- `needle` occurs as a substring of `msg` (used to state that an error
message mentions a submitted value). -/
def mentions (msg needle : String) : Prop :=
  ∃ pre suf, msg = pre ++ needle ++ suf

/-- Python `str.lower()` (character-wise, as in the source's ASCII uses). -/
def strToLower (s : String) : String := ⟨s.data.map Char.toLower⟩

/-- Python `str.upper()` (character-wise, as in the source's ASCII uses). -/
def strToUpper (s : String) : String := ⟨s.data.map Char.toUpper⟩

theorem assocLookup_nil {α : Type} (key : String) :
    assocLookup ([] : List (String × α)) key = none := rfl

theorem assocLookup_set_self {α : Type} (m : List (String × α)) (key : String) (v : α) :
    assocLookup (assocSet m key v) key = some v := by
  induction m with
  | nil => simp [assocSet, assocLookup]
  | cons p rest ih =>
    obtain ⟨k, w⟩ := p
    by_cases hk : k = key
    · simp [assocSet, hk, assocLookup]
    · simp [assocSet, hk, assocLookup, ih]

theorem assocLookup_set_ne {α : Type} (m : List (String × α)) (key key' : String) (v : α)
    (h : key' ≠ key) :
    assocLookup (assocSet m key v) key' = assocLookup m key' := by
  induction m with
  | nil => simp [assocSet, assocLookup, Ne.symm h]
  | cons p rest ih =>
    obtain ⟨k, w⟩ := p
    by_cases hk : k = key
    · subst hk
      simp [assocSet, assocLookup, Ne.symm h]
    · simp [assocSet, hk, assocLookup, ih]

theorem assocLookup_update_self {α : Type} (merge : α → α → α)
    (m : List (String × α)) (key : String) (v : α) :
    assocLookup (assocUpdate merge m key v) key =
      some (match assocLookup m key with
            | some w => merge w v
            | none => v) := by
  induction m with
  | nil => simp [assocUpdate, assocLookup]
  | cons p rest ih =>
    obtain ⟨k, w⟩ := p
    by_cases hk : k = key
    · simp [assocUpdate, hk, assocLookup]
    · simp [assocUpdate, hk, assocLookup, ih]

theorem assocLookup_update_ne {α : Type} (merge : α → α → α)
    (m : List (String × α)) (key key' : String) (v : α) (h : key' ≠ key) :
    assocLookup (assocUpdate merge m key v) key' = assocLookup m key' := by
  induction m with
  | nil => simp [assocUpdate, assocLookup, Ne.symm h]
  | cons p rest ih =>
    obtain ⟨k, w⟩ := p
    by_cases hk : k = key
    · subst hk
      simp [assocUpdate, assocLookup, Ne.symm h]
    · simp [assocUpdate, hk, assocLookup, ih]

theorem strMem_iff (l : List String) (x : String) : strMem l x = true ↔ x ∈ l := by
  induction l with
  | nil => simp [strMem]
  | cons y rest ih =>
    by_cases hy : y = x
    · subst hy; simp [strMem]
    · simp [strMem, hy, ih, Ne.symm hy]

theorem sameSet_mem {a b : List String} (h : sameSet a b = true) {x : String}
    (hx : x ∈ a) : x ∈ b := by
  unfold sameSet at h
  rw [Bool.and_eq_true] at h
  have := (List.all_eq_true.mp h.1) x hx
  exact (strMem_iff b x).mp this

theorem sameSet_refl (l : List String) : sameSet l l = true := by
  unfold sameSet
  rw [Bool.and_eq_true]
  constructor <;>
    exact List.all_eq_true.mpr (fun x hx => (strMem_iff l x).mpr hx)

end UserApi

namespace UserApi

/-! ### Form descriptions

`FormDescription` lives in `user_api/helpers.py`, which is not part of the
source fragment; it is modelled here from the spec.  A form description is
a JSON-serializable list of fields (name, type, label, placeholder,
instructions, restrictions, default, required flag, error messages, options
list) plus a store of per-field property overrides that are applied when
the named field is later added. -/

/-- A field's default value: unset, a boolean (checkboxes), or text. -/
inductive FieldDefault where
  | unset
  | boolean (b : Bool)
  | text (s : String)
  deriving Repr, DecidableEq

/-- Modelled from the spec: the property overrides that
`FormDescription.override_field_properties` can store for a field
(`user_api/helpers.py` is not in the source fragment).  `none` means the
property is not overridden. -/
structure Override where
  defaultValue : Option FieldDefault := none
  field_type : Option String := none
  required : Option Bool := none
  label : Option String := none
  instructions : Option String := none
  restrictions : Option (List (String × Nat)) := none
  deriving Repr, DecidableEq

/-- Merging two override records: properties set in `new` win. -/
def Override.merge (old new : Override) : Override :=
  { defaultValue := (new.defaultValue).orElse (fun _ => old.defaultValue)
    field_type := (new.field_type).orElse (fun _ => old.field_type)
    required := (new.required).orElse (fun _ => old.required)
    label := (new.label).orElse (fun _ => old.label)
    instructions := (new.instructions).orElse (fun _ => old.instructions)
    restrictions := (new.restrictions).orElse (fun _ => old.restrictions) }

/-- One field of a form description, with the keyword arguments of
`FormDescription.add_field` and their defaults. -/
structure FormField where
  name : String
  field_type : String := "text"
  label : String := ""
  placeholder : String := ""
  instructions : String := ""
  required : Bool := true
  restrictions : List (String × Nat) := []
  defaultValue : FieldDefault := .unset
  options : Option (List (String × String)) := none
  include_default_option : Bool := false
  error_messages : List (String × String) := []
  supplementalLink : String := ""
  supplementalText : String := ""
  deriving Repr, DecidableEq

/-- Modelled from the spec: the mutable form description built by the views
(`user_api/helpers.py` is not in the source fragment). -/
structure FormDescription where
  method : String
  action : String
  fields : List FormField := []
  field_overrides : List (String × Override) := []
  deriving Repr, DecidableEq

/-- Apply a stored override record to a field being added. -/
def applyOverride (f : FormField) (ov : Override) : FormField :=
  { f with
    defaultValue := (ov.defaultValue).getD f.defaultValue
    field_type := (ov.field_type).getD f.field_type
    required := (ov.required).getD f.required
    label := (ov.label).getD f.label
    instructions := (ov.instructions).getD f.instructions
    restrictions := (ov.restrictions).getD f.restrictions }

/-- Apply an optional override record. -/
def applyOverrideOpt : Option Override → FormField → FormField
  | some ov, f => applyOverride f ov
  | none, f => f

/-- `FormDescription.add_field`: append the field, after applying any
property overrides stored for its name. -/
def FormDescription.add_field (fd : FormDescription) (f : FormField) : FormDescription :=
  { fd with
    fields := fd.fields ++ [applyOverrideOpt (assocLookup fd.field_overrides f.name) f] }

/-- `FormDescription.override_field_properties`: record property overrides
for a (possibly not yet added) field, merging with earlier overrides. -/
def FormDescription.override_field_properties (fd : FormDescription)
    (name : String) (ov : Override) : FormDescription :=
  { fd with field_overrides := assocUpdate Override.merge fd.field_overrides name ov }

/-! ### Constants from modules outside the source fragment -/

/-- Modelled from the spec: `accounts.EMAIL_MIN_LENGTH` (the `accounts`
module is not in the source fragment; the value is immaterial here). -/
def EMAIL_MIN_LENGTH : Nat := 3

/-- Modelled from the spec: `accounts.EMAIL_MAX_LENGTH`. -/
def EMAIL_MAX_LENGTH : Nat := 254

/-- Modelled from the spec: `accounts.PASSWORD_MIN_LENGTH`. -/
def PASSWORD_MIN_LENGTH : Nat := 2

/-- Modelled from the spec: `accounts.PASSWORD_MAX_LENGTH`. -/
def PASSWORD_MAX_LENGTH : Nat := 75

/-- Modelled from the spec: `accounts.USERNAME_MIN_LENGTH`. -/
def USERNAME_MIN_LENGTH : Nat := 2

/-- Modelled from the spec: `accounts.USERNAME_MAX_LENGTH`. -/
def USERNAME_MAX_LENGTH : Nat := 30

/-- Modelled from the spec: `accounts.NAME_MAX_LENGTH`. -/
def NAME_MAX_LENGTH : Nat := 255

/-- Modelled from the spec: the platform name used in labels
(`configuration_helpers.get_value('PLATFORM_NAME', settings.PLATFORM_NAME)`). -/
def PLATFORM_NAME : String := "edX"

/-- Modelled from the spec: `edxmako.shortcuts.marketing_link`, an external
URL resolver; represented abstractly by tagging the link name. -/
def marketing_link (name : String) : String := "marketing:" ++ name

/-- Modelled from the spec: Django's `reverse` URL resolver, represented
abstractly by tagging the route name. -/
def reverse (name : String) : String := "url:" ++ name

/-- Modelled from the spec: `accounts.REQUIRED_FIELD_CONFIRM_EMAIL_MSG`. -/
def REQUIRED_FIELD_CONFIRM_EMAIL_MSG : String :=
  "The email addresses do not match."

/-- Modelled from the spec: `accounts.REQUIRED_FIELD_LEVEL_OF_EDUCATION_MSG`. -/
def REQUIRED_FIELD_LEVEL_OF_EDUCATION_MSG : String :=
  "Highest level of education completed is required."

/-- Modelled from the spec: `accounts.REQUIRED_FIELD_MAILING_ADDRESS_MSG`. -/
def REQUIRED_FIELD_MAILING_ADDRESS_MSG : String :=
  "Mailing address is required."

/-- Modelled from the spec: `accounts.REQUIRED_FIELD_GOALS_MSG`. -/
def REQUIRED_FIELD_GOALS_MSG : String :=
  "Goals are required."

/-- Modelled from the spec: `accounts.REQUIRED_FIELD_CITY_MSG`. -/
def REQUIRED_FIELD_CITY_MSG : String :=
  "City is required."

/-- Modelled from the spec: `accounts.REQUIRED_FIELD_COUNTRY_MSG`. -/
def REQUIRED_FIELD_COUNTRY_MSG : String :=
  "Country is required."

/-- Modelled from the spec: `django_countries.countries`, the (name, label)
option list for the country dropdown; represented by a sample. -/
def countries_options : List (String × String) :=
  [("US", "United States"), ("FR", "France")]

/-- Modelled from the spec: `UserProfile.LEVEL_OF_EDUCATION_CHOICES`
(the `models` module is not in the source fragment); a sample. -/
def LEVEL_OF_EDUCATION_CHOICES : List (String × String) :=
  [("p", "Doctorate"), ("m", "Masters or professional degree"), ("b", "Bachelors degree")]

/-- Modelled from the spec: `UserProfile.GENDER_CHOICES`; a sample. -/
def GENDER_CHOICES : List (String × String) :=
  [("m", "Male"), ("f", "Female"), ("o", "Other/Prefer Not to Say")]

/-- Modelled from the spec: `UserProfile.VALID_YEARS`; a sample. -/
def VALID_YEARS : List Nat := [2017, 2016, 2015]

/-! ### The email opt-in preference endpoint (`UpdateEmailOptInPreference.post`) -/

/-- Outcome of `UpdateEmailOptInPreference.post`: the HTTP status, the
plain-text body, and the `update_email_opt_in(user, org, value)` call that
was performed, if any (recorded as the organization and the boolean value). -/
structure OptInOutcome where
  status : Nat
  body : String
  updated : Option (String × Bool)
  deriving Repr, DecidableEq

/-- `UpdateEmailOptInPreference.post`.  `parseCourseOrg` stands for
`locator.CourseLocator.from_string(course_id).org`: it returns `none` when
the parser raises `InvalidKeyError` and otherwise the organization code.
`course_id` and `email_opt_in` are the two POST parameters (both present,
as enforced by the `require_post_params` decorator). -/
def UpdateEmailOptInPreference.post (parseCourseOrg : String → Option String)
    (course_id email_opt_in : String) : OptInOutcome :=
  match parseCourseOrg course_id with
  | none =>
      { status := 400
        body := "No course " ++ course_id ++ " found"
        updated := none }
  | some org =>
      -- Only check for true.  All other values are False.
      let opt_in := strToLower email_opt_in == "true"
      { status := 200
        body := ""
        updated := some (org, opt_in) }

/-- C8: an email-opt-in POST whose `course_id` cannot be parsed as a course
locator returns HTTP 400 with a plain-text body naming the unparsable course
id, and `update_email_opt_in` is not performed.  (The body's surrounding
quote characters of the source message are elided in the model.) -/
theorem opt_in_unparsable_course_returns_400 (parseCourseOrg : String → Option String)
    (course_id email_opt_in : String) (h : parseCourseOrg course_id = none) :
    UpdateEmailOptInPreference.post parseCourseOrg course_id email_opt_in =
      { status := 400, body := "No course " ++ course_id ++ " found", updated := none } ∧
    mentions ("No course " ++ course_id ++ " found") course_id := by
  refine ⟨?_, "No course ", " found", rfl⟩
  unfold UpdateEmailOptInPreference.post
  rw [h]

/-- Witness for C8 at a concrete unparsable course id. -/
theorem opt_in_unparsable_course_returns_400_witness :
    UpdateEmailOptInPreference.post (fun _ => none) "not-a-course-id" "true" =
      { status := 400, body := "No course " ++ "not-a-course-id" ++ " found",
        updated := none } ∧
    mentions ("No course " ++ "not-a-course-id" ++ " found") "not-a-course-id" :=
  opt_in_unparsable_course_returns_400 (fun _ => none) "not-a-course-id" "true" rfl

/-- C10: with a parsable `course_id`, the stored opt-in boolean is true
exactly when the `email_opt_in` parameter, lowercased, equals "true", and
the endpoint returns HTTP 200. -/
theorem opt_in_stores_lowercase_true_comparison (parseCourseOrg : String → Option String)
    (course_id email_opt_in org : String) (h : parseCourseOrg course_id = some org) :
    UpdateEmailOptInPreference.post parseCourseOrg course_id email_opt_in =
      { status := 200, body := "",
        updated := some (org, strToLower email_opt_in == "true") } := by
  unfold UpdateEmailOptInPreference.post
  rw [h]

/-- Witness for C10: the value "TRUE " (trailing whitespace) is stored as
false, and the endpoint returns HTTP 200. -/
theorem opt_in_stores_lowercase_true_comparison_witness :
    UpdateEmailOptInPreference.post (fun _ => some "orgX") "course-v1:orgX+c+r" "TRUE " =
      { status := 200, body := "", updated := some ("orgX", false) } :=
  (opt_in_stores_lowercase_true_comparison (fun _ => some "orgX")
    "course-v1:orgX+c+r" "TRUE " "orgX" rfl).trans (by decide)

end UserApi

namespace UserApi

/-! ### `RegistrationView`: constructor and field handlers -/

/-- `RegistrationView.DEFAULT_FIELDS`. -/
def DEFAULT_FIELDS : List String := ["email", "name", "username", "password"]

/-- `RegistrationView.EXTRA_FIELDS`. -/
def EXTRA_FIELDS : List String :=
  [ "confirm_email", "first_name", "last_name", "city", "state", "country",
    "gender", "year_of_birth", "level_of_education", "company", "title",
    "mailing_address", "goals", "honor_code", "terms_of_service" ]

/-- `valid_fields = self.DEFAULT_FIELDS + self.EXTRA_FIELDS`. -/
def valid_fields : List String := DEFAULT_FIELDS ++ EXTRA_FIELDS

/-- The state the `RegistrationView` constructor computes: the effective
`REGISTRATION_EXTRA_FIELDS` mapping and the field order. -/
structure ViewState where
  extra_fields_setting : List (String × String)
  field_order : List String
  deriving Repr, DecidableEq

/-- `RegistrationView._is_field_visible`. -/
def is_field_visible (st : ViewState) (field_name : String) : Bool :=
  match assocLookup st.extra_fields_setting field_name with
  | some v => strMem ["required", "optional"] v
  | none => false

/-- `RegistrationView._is_field_required`. -/
def is_field_required (st : ViewState) (field_name : String) : Bool :=
  match assocLookup st.extra_fields_setting field_name with
  | some v => v == "required"
  | none => false

/-- The configuration error message raised by the constructor. -/
def EXTRA_FIELDS_ERROR : String :=
  "Setting REGISTRATION_EXTRA_FIELDS values must be either required, optional, or hidden."

/-- `RegistrationView.__init__`, after the two-layer configuration lookup
(see `effective_extra_fields` / `effective_field_order` below):
default the honor-code visibility to "required", validate every
`EXTRA_FIELDS` entry against the visibility enum (raising
`ImproperlyConfigured`, modelled as `Except.error`, otherwise), and compute
the field order, resetting it to `valid_fields` when its set of names
differs from the valid field set.  An empty `field_order_setting` models an
unset `REGISTRATION_FIELD_ORDER` (`or valid_fields` in the source). -/
def registration_init (extra_fields_setting : List (String × String))
    (field_order_setting : List String) : Except String ViewState :=
  let efs := assocSet extra_fields_setting "honor_code"
    (assocLookupD extra_fields_setting "honor_code" "required")
  if EXTRA_FIELDS.all (fun field_name =>
      strMem ["required", "optional", "hidden"] (assocLookupD efs field_name "hidden")) then
    let field_order := if field_order_setting.isEmpty then valid_fields else field_order_setting
    let field_order := if sameSet valid_fields field_order then field_order else valid_fields
    .ok { extra_fields_setting := efs, field_order := field_order }
  else
    .error EXTRA_FIELDS_ERROR

/-- `configuration_helpers.get_value('REGISTRATION_EXTRA_FIELDS')` with the
fall-through to `settings.REGISTRATION_EXTRA_FIELDS` when the site value is
falsy (`None` or an empty mapping). -/
def effective_extra_fields (site : Option (List (String × String)))
    (settings_value : List (String × String)) : List (String × String) :=
  match site with
  | some m => if m.isEmpty then settings_value else m
  | none => settings_value

/-- `configuration_helpers.get_value('REGISTRATION_FIELD_ORDER')` with the
fall-through to `settings.REGISTRATION_FIELD_ORDER` when the site value is
falsy (an empty list models an unset value). -/
def effective_field_order (site settings_value : List String) : List String :=
  if site.isEmpty then settings_value else site

/-- The whole constructor: layered configuration, then `registration_init`. -/
def registration_view_init (site_extra : Option (List (String × String)))
    (settings_extra : List (String × String))
    (site_order settings_order : List String) : Except String ViewState :=
  registration_init (effective_extra_fields site_extra settings_extra)
    (effective_field_order site_order settings_order)

/-- `RegistrationView._add_email_field`. -/
def add_email_field (fd : FormDescription) (required : Bool) : FormDescription :=
  fd.add_field
    { name := "email"
      field_type := "email"
      label := "Email"
      placeholder := "username@domain.com"
      instructions := "This is what you will use to login."
      restrictions := [("min_length", EMAIL_MIN_LENGTH), ("max_length", EMAIL_MAX_LENGTH)]
      required := required }

/-- `RegistrationView._add_confirm_email_field`. -/
def add_confirm_email_field (fd : FormDescription) (required : Bool) : FormDescription :=
  fd.add_field
    { name := "confirm_email"
      label := "Confirm Email"
      required := required
      error_messages := [("required", REQUIRED_FIELD_CONFIRM_EMAIL_MSG)] }

/-- `RegistrationView._add_name_field`. -/
def add_name_field (fd : FormDescription) (required : Bool) : FormDescription :=
  fd.add_field
    { name := "name"
      label := "Full Name"
      placeholder := "Jane Q. Learner"
      instructions := "This name will be used on any certificates that you earn."
      restrictions := [("max_length", NAME_MAX_LENGTH)]
      required := required }

/-- `RegistrationView._add_username_field`. -/
def add_username_field (fd : FormDescription) (required : Bool) : FormDescription :=
  fd.add_field
    { name := "username"
      label := "Public Username"
      instructions := "The name that will identify you in your courses. It cannot be changed later."
      placeholder := "Jane_Q_Learner"
      restrictions := [("min_length", USERNAME_MIN_LENGTH), ("max_length", USERNAME_MAX_LENGTH)]
      required := required }

/-- `RegistrationView._add_password_field`. -/
def add_password_field (fd : FormDescription) (required : Bool) : FormDescription :=
  fd.add_field
    { name := "password"
      label := "Password"
      field_type := "password"
      restrictions := [("min_length", PASSWORD_MIN_LENGTH), ("max_length", PASSWORD_MAX_LENGTH)]
      required := required }

/-- `RegistrationView._add_level_of_education_field`. -/
def add_level_of_education_field (fd : FormDescription) (required : Bool) : FormDescription :=
  fd.add_field
    { name := "level_of_education"
      label := "Highest level of education completed"
      field_type := "select"
      options := some LEVEL_OF_EDUCATION_CHOICES
      include_default_option := true
      required := required
      error_messages := [("required", REQUIRED_FIELD_LEVEL_OF_EDUCATION_MSG)] }

/-- `RegistrationView._add_gender_field`. -/
def add_gender_field (fd : FormDescription) (required : Bool) : FormDescription :=
  fd.add_field
    { name := "gender"
      label := "Gender"
      field_type := "select"
      options := some GENDER_CHOICES
      include_default_option := true
      required := required }

/-- `RegistrationView._add_year_of_birth_field`. -/
def add_year_of_birth_field (fd : FormDescription) (required : Bool) : FormDescription :=
  fd.add_field
    { name := "year_of_birth"
      label := "Year of birth"
      field_type := "select"
      options := some (VALID_YEARS.map (fun year => (toString year, toString year)))
      include_default_option := true
      required := required }

/-- `RegistrationView._add_mailing_address_field`. -/
def add_mailing_address_field (fd : FormDescription) (required : Bool) : FormDescription :=
  fd.add_field
    { name := "mailing_address"
      label := "Mailing address"
      field_type := "textarea"
      required := required
      error_messages := [("required", REQUIRED_FIELD_MAILING_ADDRESS_MSG)] }

/-- `RegistrationView._add_goals_field`. -/
def add_goals_field (fd : FormDescription) (required : Bool) : FormDescription :=
  fd.add_field
    { name := "goals"
      label := "Tell us why you are interested in " ++ PLATFORM_NAME
      field_type := "textarea"
      required := required
      error_messages := [("required", REQUIRED_FIELD_GOALS_MSG)] }

/-- `RegistrationView._add_city_field`. -/
def add_city_field (fd : FormDescription) (required : Bool) : FormDescription :=
  fd.add_field
    { name := "city"
      label := "City"
      required := required
      error_messages := [("required", REQUIRED_FIELD_CITY_MSG)] }

/-- `RegistrationView._add_state_field`. -/
def add_state_field (fd : FormDescription) (required : Bool) : FormDescription :=
  fd.add_field
    { name := "state"
      label := "State/Province/Region"
      required := required }

/-- `RegistrationView._add_company_field`. -/
def add_company_field (fd : FormDescription) (required : Bool) : FormDescription :=
  fd.add_field
    { name := "company"
      label := "Company"
      required := required }

/-- `RegistrationView._add_title_field`. -/
def add_title_field (fd : FormDescription) (required : Bool) : FormDescription :=
  fd.add_field
    { name := "title"
      label := "Title"
      required := required }

/-- `RegistrationView._add_first_name_field`. -/
def add_first_name_field (fd : FormDescription) (required : Bool) : FormDescription :=
  fd.add_field
    { name := "first_name"
      label := "First Name"
      required := required }

/-- `RegistrationView._add_last_name_field`. -/
def add_last_name_field (fd : FormDescription) (required : Bool) : FormDescription :=
  fd.add_field
    { name := "last_name"
      label := "Last Name"
      required := required }

/-- The first half of `RegistrationView._add_country_field`: if an override
stored a truthy textual default country code, re-override it uppercased
(`if default_country: ... .upper()`); any other stored default is left
alone. -/
def country_default_override (fd : FormDescription) :
    Option FieldDefault → FormDescription
  | some (FieldDefault.text s) =>
      if s ≠ "" then
        fd.override_field_properties "country"
          { defaultValue := some (.text (strToUpper s)) }
      else fd
  | _ => fd

/-- `RegistrationView._add_country_field`: uppercase a stored default
country code, then add the country dropdown. -/
def add_country_field (fd : FormDescription) (required : Bool) : FormDescription :=
  let fd := country_default_override fd
    ((assocLookup fd.field_overrides "country").bind (fun ov => ov.defaultValue))
  fd.add_field
    { name := "country"
      label := "Country"
      field_type := "select"
      options := some countries_options
      include_default_option := true
      required := required
      error_messages := [("required", REQUIRED_FIELD_COUNTRY_MSG)] }

/-- `RegistrationView._add_honor_code_field`: a combined or separate
honor-code checkbox, depending on whether terms-of-service is visible. -/
def add_honor_code_field (st : ViewState) (fd : FormDescription) (required : Bool) :
    FormDescription :=
  let separate := is_field_visible st "terms_of_service"
  let terms_label := if separate then "Honor Code" else "Terms of Service and Honor Code"
  let terms_link := marketing_link "HONOR"
  let terms_text :=
    if separate then "Review the Honor Code"
    else "Review the Terms of Service and Honor Code"
  fd.add_field
    { name := "honor_code"
      label := "I agree to the " ++ PLATFORM_NAME ++ " " ++ terms_label
      field_type := "checkbox"
      defaultValue := .boolean false
      required := required
      error_messages :=
        [("required", "You must agree to the " ++ PLATFORM_NAME ++ " " ++ terms_label)]
      supplementalLink := terms_link
      supplementalText := terms_text }

/-- `RegistrationView._add_terms_of_service_field`. -/
def add_terms_of_service_field (fd : FormDescription) (required : Bool) : FormDescription :=
  let terms_label := "Terms of Service"
  fd.add_field
    { name := "terms_of_service"
      label := "I agree to the " ++ PLATFORM_NAME ++ " " ++ terms_label
      field_type := "checkbox"
      defaultValue := .boolean false
      required := required
      error_messages :=
        [("required", "You must agree to the " ++ PLATFORM_NAME ++ " " ++ terms_label)]
      supplementalLink := marketing_link "TOS"
      supplementalText := "Review the Terms of Service" }

/-- `self.field_handlers`: dispatch from a field name to the instance method
that adds the field (`_add_<field_name>_field`).  Names outside
`valid_fields` never reach this map in the source (`getattr` would have
failed in the constructor); the catch-all branch returns the description
unchanged. -/
def field_handler (st : ViewState) (field_name : String) (fd : FormDescription)
    (required : Bool) : FormDescription :=
  if field_name = "email" then add_email_field fd required
  else if field_name = "name" then add_name_field fd required
  else if field_name = "username" then add_username_field fd required
  else if field_name = "password" then add_password_field fd required
  else if field_name = "confirm_email" then add_confirm_email_field fd required
  else if field_name = "first_name" then add_first_name_field fd required
  else if field_name = "last_name" then add_last_name_field fd required
  else if field_name = "city" then add_city_field fd required
  else if field_name = "state" then add_state_field fd required
  else if field_name = "country" then add_country_field fd required
  else if field_name = "gender" then add_gender_field fd required
  else if field_name = "year_of_birth" then add_year_of_birth_field fd required
  else if field_name = "level_of_education" then add_level_of_education_field fd required
  else if field_name = "company" then add_company_field fd required
  else if field_name = "title" then add_title_field fd required
  else if field_name = "mailing_address" then add_mailing_address_field fd required
  else if field_name = "goals" then add_goals_field fd required
  else if field_name = "honor_code" then add_honor_code_field st fd required
  else if field_name = "terms_of_service" then add_terms_of_service_field fd required
  else fd

end UserApi

namespace UserApi

/-! ### Third-party-auth overrides and `RegistrationView.get` -/

/-- The current third-party-auth provider, as the view observes it:
`provider.Registry.get_from_pipeline(running_pipeline)` together with
`get_register_form_data(...)` (the provider-supplied field overrides,
strings keyed by field name) and the skip-registration-form flag. -/
structure ProviderInfo where
  name : String
  skip_registration_form : Bool
  register_form_data : List (String × String)
  deriving Repr, DecidableEq

/-- The third-party-auth state of a request: `third_party_auth.is_enabled()`,
whether `third_party_auth.pipeline.get(request)` returns a running pipeline,
the current provider (if registered), and whether
`enterprise_customer_for_request(request)` is truthy. -/
structure TpaContext where
  third_party_auth_enabled : Bool
  running_pipeline : Bool
  current_provider : Option ProviderInfo
  enterprise_customer : Bool
  deriving Repr, DecidableEq

/-- A context with no third-party auth (used where a claim is silent about
third-party auth). -/
def no_tpa_context : TpaContext :=
  { third_party_auth_enabled := false
    running_pipeline := false
    current_provider := none
    enterprise_customer := false }

/-- The override record the loop stores for a provider-overridden field. -/
def tpa_default_override (v : String) : Override :=
  { defaultValue := some (.text v) }

/-- The override record that hides a field in the enterprise
skip-registration case. -/
def tpa_hide_override : Override :=
  { field_type := some "hidden", label := some "", instructions := some "" }

/-- The blanket override applied to the password field. -/
def tpa_password_override : Override :=
  { defaultValue := some (.text "")
    field_type := some "hidden"
    required := some false
    label := some ""
    instructions := some ""
    restrictions := some [] }

/-- One iteration of the override loop in
`RegistrationView._apply_third_party_auth_overrides`: store the provider's
default for the field and, outside the terms-of-service/honor-code pair,
hide the field when the provider value is truthy and the
skip-registration-in-enterprise flag is set. -/
def tpa_override_step (register_form_data : List (String × String))
    (hide_registration_fields_except_tos : Bool)
    (fd : FormDescription) (field_name : String) : FormDescription :=
  match assocLookup register_form_data field_name with
  | none => fd
  | some v =>
      let fd := fd.override_field_properties field_name (tpa_default_override v)
      if strMem ["terms_of_service", "honor_code"] field_name = false ∧ v ≠ "" ∧
          hide_registration_fields_except_tos = true then
        fd.override_field_properties field_name tpa_hide_override
      else fd

/-- `RegistrationView._apply_third_party_auth_overrides`. -/
def apply_third_party_auth_overrides (ctx : TpaContext) (form_desc : FormDescription) :
    FormDescription :=
  if ctx.third_party_auth_enabled = true ∧ ctx.running_pipeline = true then
    match ctx.current_provider with
    | none => form_desc
    | some current_provider =>
        let field_overrides := current_provider.register_form_data
        let hide_registration_fields_except_tos :=
          current_provider.skip_registration_form && ctx.enterprise_customer
        let fd := (DEFAULT_FIELDS ++ EXTRA_FIELDS).foldl
          (tpa_override_step field_overrides hide_registration_fields_except_tos) form_desc
        let fd := fd.override_field_properties "password" tpa_password_override
        -- used to identify that request is running third party social auth
        fd.add_field
          { name := "social_auth_provider"
            field_type := "hidden"
            label := ""
            defaultValue := .text (if current_provider.name ≠ "" then current_provider.name
                                   else "Third Party")
            required := false }
  else form_desc

/-- One field of a custom registration extension form
(`settings.REGISTRATION_EXTENSION_FORM`), as the view reads it:
label, initial value, help text, required flag, optional length bounds,
declared choices and error messages, and the wire field type that
`FormDescription.FIELD_TYPE_MAP` assigns to the field's class (`none` when
the class has no mapping). -/
structure CustomField where
  name : String
  label : String := ""
  initial : String := ""
  help_text : String := ""
  required : Bool := true
  max_length : Option Nat := none
  min_length : Option Nat := none
  mapped_field_type : Option String := none
  choices : Option (List (String × String)) := none
  error_messages : List (String × String) := []
  deriving Repr, DecidableEq

/-- Per-field `Meta.serialization_options` of a custom form. -/
structure SerializationOptions where
  field_type : Option String := none
  defaultValue : Option FieldDefault := none
  include_default_option : Option Bool := none
  deriving Repr, DecidableEq

/-- A custom registration extension form: its fields (in `fields.items()`
order) and its serialization options. -/
structure CustomForm where
  fields : List CustomField
  serialization_options : List (String × SerializationOptions) := []
  deriving Repr, DecidableEq

/-- The configuration error raised for an unmapped custom field type. -/
def custom_field_type_error (field_name : String) : String :=
  "Field type not recognized for registration extension field " ++ field_name ++ "."

/-- The custom-field branch of `RegistrationView.get` for one custom field:
collect length restrictions (Python truthiness: a zero bound is not
collected), resolve the wire field type from the serialization options with
the class map as fallback, fail on a falsy field type, and add the field. -/
def add_custom_field (cf : CustomForm) (fd : FormDescription) (field : CustomField) :
    Except String FormDescription :=
  let restrictions :=
    (match field.max_length with
     | some n => if n ≠ 0 then [("max_length", n)] else []
     | none => []) ++
    (match field.min_length with
     | some n => if n ≠ 0 then [("min_length", n)] else []
     | none => [])
  let field_options := (assocLookup cf.serialization_options field.name).getD {}
  let field_type :=
    match field_options.field_type with
    | some t => some t
    | none => field.mapped_field_type
  match field_type with
  | none => .error (custom_field_type_error field.name)
  | some t =>
      if t = "" then .error (custom_field_type_error field.name)
      else
        .ok (fd.add_field
          { name := field.name
            label := field.label
            defaultValue := (field_options.defaultValue).getD .unset
            field_type := t
            placeholder := field.initial
            instructions := field.help_text
            required := field.required
            restrictions := restrictions
            options := field.choices
            error_messages := field.error_messages
            include_default_option := (field_options.include_default_option).getD false })

/-- The step of the `self.field_order` loop in the no-custom-form branch of
`RegistrationView.get`: default fields are always added as required, extra
fields are added when visible. -/
def reg_order_step (st : ViewState) (fd : FormDescription) (field_name : String) :
    FormDescription :=
  if strMem DEFAULT_FIELDS field_name then field_handler st field_name fd true
  else if is_field_visible st field_name then
    field_handler st field_name fd (is_field_required st field_name)
  else fd

/-- The step of the `EXTRA_FIELDS` loop in the custom-form branch. -/
def reg_extra_step (st : ViewState) (fd : FormDescription) (field_name : String) :
    FormDescription :=
  if is_field_visible st field_name then
    field_handler st field_name fd (is_field_required st field_name)
  else fd

/-- The step of the `DEFAULT_FIELDS` loop in the custom-form branch
(default fields are always required). -/
def reg_default_step (st : ViewState) (fd : FormDescription) (field_name : String) :
    FormDescription :=
  field_handler st field_name fd true

/-- `RegistrationView.get`: build the form description, apply third-party
auth overrides, then add fields — from the custom extension form when one
is configured (default fields first, then the custom fields, then visible
extra fields), otherwise walking `self.field_order`.  `Except.error` models
an `ImproperlyConfigured` exception escaping the view. -/
def registration_get (st : ViewState) (ctx : TpaContext)
    (custom_form : Option CustomForm) : Except String FormDescription :=
  let form_desc : FormDescription :=
    { method := "post", action := reverse "user_api_registration" }
  let form_desc := apply_third_party_auth_overrides ctx form_desc
  match custom_form with
  | some cf => do
      -- Default fields are always required
      let fd := DEFAULT_FIELDS.foldl (reg_default_step st) form_desc
      let fd ← cf.fields.foldlM (add_custom_field cf) fd
      -- Extra fields configured in Django settings may be required, optional, or hidden
      let fd := EXTRA_FIELDS.foldl (reg_extra_step st) fd
      return fd
  | none =>
      .ok (st.field_order.foldl (reg_order_step st) form_desc)

end UserApi

namespace UserApi

/-! ### `RegistrationView.post` -/

/-- Modelled from the spec: `accounts.EMAIL_CONFLICT_MSG` formatted with the
submitted email address (the `accounts` module is not in the source
fragment; the message mentions the address). -/
def EMAIL_CONFLICT_MSG (email_address : String) : String :=
  "It looks like " ++ email_address ++
    " belongs to an existing account. Try again with a different email address."

/-- Modelled from the spec: `accounts.USERNAME_CONFLICT_MSG` formatted with
the submitted username. -/
def USERNAME_CONFLICT_MSG (username : String) : String :=
  "It looks like " ++ username ++
    " belongs to an existing account. Try again with a different username."

/-- Django's `NON_FIELD_ERRORS` dictionary key. -/
def NON_FIELD_ERRORS : String := "__all__"

/-- The possible outcomes of `create_account_with_params`, which is an
external collaborator (`student.views`): success, an
`AccountValidationError` (one field and message), a `ValidationError`
carrying `message_dict` (field name to list of messages), or
`PermissionDenied`. -/
inductive AccountResult where
  | ok
  | accountValidationError (field message : String)
  | validationError (message_dict : List (String × List String))
  | permissionDenied
  deriving Repr, DecidableEq

/-- The observable outcome of `RegistrationView.post`: HTTP status, the
JSON error body (field name to the `user_message` strings of its error
list), a plain-text body (403 only), the success flag, and the submission
data passed to `create_account_with_params` if it was called. -/
structure PostOutcome where
  status : Nat
  body : List (String × List String) := []
  plain_body : String := ""
  success : Bool := false
  createCalledWith : Option (List (String × String)) := none
  deriving Repr, DecidableEq

/-- Python truthiness of an optional string such as `data.get("honor_code")`. -/
def truthy_str : Option String → Bool
  | some v => v ≠ ""
  | none => false

/-- The backwards-compatibility shim in `RegistrationView.post`: when the
submitted `honor_code` value is truthy (non-empty) and no
`terms_of_service` key was submitted, copy the honor-code value into
`terms_of_service`. -/
def apply_honor_code_shim (data : List (String × String)) : List (String × String) :=
  if truthy_str (assocLookup data "honor_code") && !assocHasKey data "terms_of_service" then
    assocSet data "terms_of_service" (assocLookupD data "honor_code" "")
  else data

/-- `RegistrationView.post`.  `check_account_exists` and
`create_account_with_params` are external collaborators passed as
functions; `data` is `request.POST`.  `Except.error` models an uncaught
exception (a `KeyError` on an unexpected conflict name, or the source's
`assert` about non-field errors failing). -/
def registration_post
    (check_account_exists : Option String → Option String → List String)
    (create_account_with_params : List (String × String) → AccountResult)
    (data : List (String × String)) : Except String PostOutcome :=
  let email := assocLookup data "email"
  let username := assocLookup data "username"
  -- Handle duplicate email/username
  let conflicts := check_account_exists email username
  if conflicts ≠ [] then
    let conflict_messages : List (String × String) :=
      [ ("email", EMAIL_CONFLICT_MSG (email.getD "None"))
      , ("username", USERNAME_CONFLICT_MSG (username.getD "None")) ]
    (conflicts.mapM (fun field =>
        match assocLookup conflict_messages field with
        | some msg => Except.ok (field, [msg])
        | none => Except.error "KeyError")).map
      (fun errors => { status := 409, body := errors })
  else
    let data := apply_honor_code_shim data
    match create_account_with_params data with
    | .ok =>
        .ok { status := 200, success := true, createCalledWith := some data }
    | .accountValidationError field message =>
        .ok { status := 409, body := [(field, [message])], createCalledWith := some data }
    | .validationError message_dict =>
        -- Should only get non-field errors from this function
        if message_dict.any (fun p => p.1 == NON_FIELD_ERRORS) then
          .error "AssertionError"
        else
          -- Only return first error for each field
          .ok { status := 400
                body := message_dict.map (fun p => (p.1, p.2))
                createCalledWith := some data }
    | .permissionDenied =>
        .ok { status := 403, plain_body := "Account creation not allowed."
              createCalledWith := some data }

end UserApi

namespace UserApi

/-! ### Claim C2: validation of `REGISTRATION_EXTRA_FIELDS` values -/

/-- Lookup into the honor-code-defaulted setting agrees with the raw
configuration on every key that is present. -/
theorem efs_lookup_present (extra : List (String × String)) (f v : String)
    (hlook : assocLookup extra f = some v) :
    assocLookup
      (assocSet extra "honor_code" (assocLookupD extra "honor_code" "required")) f =
      some v := by
  by_cases hf : f = "honor_code"
  · subst hf
    rw [assocLookup_set_self, assocLookupD, hlook]
    rfl
  · rw [assocLookup_set_ne _ _ _ _ hf, hlook]

/-- C2 (counterexample): a configuration mapping the key "foo", which is
not in `EXTRA_FIELDS`, to the value "banana", which is outside the
visibility enum, does not make construction fail: `registration_init`
succeeds, contradicting the claim's quantification over every key of the
mapping. -/
theorem extra_fields_unknown_key_not_checked :
    registration_init [("foo", "banana")] [] =
      .ok { extra_fields_setting := [("foo", "banana"), ("honor_code", "required")],
            field_order := valid_fields } ∧
    strMem ["required", "optional", "hidden"] "banana" = false :=
  ⟨rfl, rfl⟩

/-- C2 (amended): for every key `f` of `EXTRA_FIELDS` that the
configuration maps to a value outside the enum (required, optional,
hidden), construction of the registration view fails with the
`ImproperlyConfigured` message. -/
theorem extra_fields_bad_value_fails (extra : List (String × String))
    (order : List String) (f v : String)
    (hf : f ∈ EXTRA_FIELDS) (hlook : assocLookup extra f = some v)
    (hv : strMem ["required", "optional", "hidden"] v = false) :
    registration_init extra order = .error EXTRA_FIELDS_ERROR := by
  have hall : EXTRA_FIELDS.all (fun field_name =>
      strMem ["required", "optional", "hidden"]
        (assocLookupD
          (assocSet extra "honor_code" (assocLookupD extra "honor_code" "required"))
          field_name "hidden")) = false := by
    rw [Bool.eq_false_iff]
    intro hall
    have hp := List.all_eq_true.mp hall f hf
    rw [assocLookupD, efs_lookup_present extra f v hlook] at hp
    rw [Option.getD_some] at hp
    rw [hv] at hp
    exact Bool.false_ne_true hp
  simp only [registration_init, hall]
  rfl

/-- Witness for the amended C2: "gender" mapped to "banana" makes
construction fail. -/
theorem extra_fields_bad_value_fails_witness :
    "gender" ∈ EXTRA_FIELDS ∧
    registration_init [("gender", "banana")] [] = .error EXTRA_FIELDS_ERROR :=
  ⟨by decide,
   extra_fields_bad_value_fails [("gender", "banana")] [] "gender" "banana"
     (by decide) rfl rfl⟩

/-! ### Claim C4: the honor-code / terms-of-service shim -/

/-- C4 (counterexample): a submission carrying `honor_code` with the empty
(falsy) value and no `terms_of_service`, which passes the conflict check,
reaches `create_account_with_params` without any `terms_of_service` key:
the claim fails for falsy `honor_code` values. -/
theorem honor_code_shim_skips_falsy :
    registration_post (fun _ _ => []) (fun _ => .ok) [("honor_code", "")] =
      .ok { status := 200, success := true,
            createCalledWith := some [("honor_code", "")] } ∧
    assocLookup [("honor_code", "")] "terms_of_service" = none :=
  ⟨rfl, rfl⟩

/-- C4 (amended): for every registration POST whose form data contains a
truthy (non-empty) `honor_code` value, no `terms_of_service` key, and that
passes the conflict check, the data passed to `create_account_with_params`
has `terms_of_service` equal to the submitted `honor_code` value. -/
theorem honor_code_shim_copies_truthy
    (check : Option String → Option String → List String)
    (create : List (String × String) → AccountResult)
    (data : List (String × String)) (v : String)
    (hhc : assocLookup data "honor_code" = some v) (hv : v ≠ "")
    (htos : assocLookup data "terms_of_service" = none)
    (hconf : check (assocLookup data "email") (assocLookup data "username") = []) :
    assocLookup (apply_honor_code_shim data) "terms_of_service" = some v ∧
    ∀ out, registration_post check create data = Except.ok out →
      out.createCalledWith = some (apply_honor_code_shim data) := by
  have hcond : (truthy_str (assocLookup data "honor_code") &&
      !assocHasKey data "terms_of_service") = true := by
    rw [hhc, assocHasKey, htos]
    simp [truthy_str, hv]
  have hshim : apply_honor_code_shim data =
      assocSet data "terms_of_service" (assocLookupD data "honor_code" "") := by
    rw [apply_honor_code_shim, if_pos hcond]
  constructor
  · rw [hshim, assocLookup_set_self, assocLookupD, hhc]
    rfl
  · intro out hout
    rcases hcr : create (apply_honor_code_shim data) with _ | ⟨fld, msg⟩ | md | _ <;>
      simp only [registration_post, hconf, ne_eq, not_true_eq_false, if_false, reduceIte,
        hcr, Except.ok.injEq] at hout
    · rw [← hout]
    · rw [← hout]
    · split at hout
      · cases hout
      · simp only [Except.ok.injEq] at hout
        rw [← hout]
    · rw [← hout]

/-- Witness for the amended C4 at a concrete truthy submission. -/
theorem honor_code_shim_copies_truthy_witness :
    assocLookup (apply_honor_code_shim [("honor_code", "true")]) "terms_of_service" =
      some "true" ∧
    ∀ out, registration_post (fun _ _ => []) (fun _ => AccountResult.ok)
        [("honor_code", "true")] = Except.ok out →
      out.createCalledWith = some (apply_honor_code_shim [("honor_code", "true")]) :=
  honor_code_shim_copies_truthy (fun _ _ => []) (fun _ => AccountResult.ok)
    [("honor_code", "true")] "true" rfl (by decide) rfl rfl

/-! ### Claim C5: validation-error responses -/

/-- C5 (evaluation at the failing input): when
`create_account_with_params` raises a `ValidationError` with two messages
for the field "email", the response has status 400 but its body carries
BOTH messages for that field — not only the first, as the claim (and the
comment in the source) state. -/
theorem validation_error_returns_all_messages :
    registration_post (fun _ _ => [])
      (fun _ => .validationError [("email", ["Email is invalid.", "Email is too long."])])
      [("email", "a@b.c")] =
    .ok { status := 400,
          body := [("email", ["Email is invalid.", "Email is too long."])],
          createCalledWith := some [("email", "a@b.c")] } := rfl

end UserApi

namespace UserApi

/-! ### Claim C6: duplicate email/username conflicts -/

/-- The per-conflict error entries: when every conflict name has a message
in the table, the `mapM` in `registration_post` succeeds, and each conflict
name contributes its table entry to the resulting error list. -/
theorem conflict_mapM_ok (msgs : List (String × String)) (l : List String)
    (h : ∀ f ∈ l, ∃ m, assocLookup msgs f = some m) :
    ∃ errors,
      l.mapM (fun field =>
        match assocLookup msgs field with
        | some msg => Except.ok ((field, [msg]) : String × List String)
        | none => Except.error "KeyError") = Except.ok errors ∧
      ∀ f m, f ∈ l → assocLookup msgs f = some m → (f, [m]) ∈ errors := by
  induction l with
  | nil =>
    exact ⟨[], rfl, fun f m hf _ => absurd hf (List.not_mem_nil f)⟩
  | cons g rest ih =>
    obtain ⟨mg, hmg⟩ := h g (List.mem_cons_self g rest)
    obtain ⟨errors, herrors, hmem⟩ := ih (fun f hf => h f (List.mem_cons_of_mem g hf))
    refine ⟨(g, [mg]) :: errors, ?_, ?_⟩
    · rw [List.mapM_cons, hmg, herrors]
      rfl
    · intro f m hf hfm
      rcases List.mem_cons.mp hf with hfg | hfr
      · subst hfg
        rw [hmg] at hfm
        rw [Option.some.injEq] at hfm
        subst hfm
        exact List.mem_cons_self _ _
      · exact List.mem_cons_of_mem _ (hmem f m hfr hfm)

/-- C6: a registration POST whose email conflicts with an existing account
returns HTTP 409 with an entry keyed "email" whose message mentions the
email address; when the username conflicts as well, an analogous entry
keyed "username" appears.  `check_account_exists` returns names drawn from
the email/username pair, as its callers guarantee. -/
theorem email_conflict_returns_409
    (check : Option String → Option String → List String)
    (create : List (String × String) → AccountResult)
    (data : List (String × String)) (email username : String)
    (hemail : assocLookup data "email" = some email)
    (husername : assocLookup data "username" = some username)
    (hsub : ∀ f ∈ check (some email) (some username), f = "email" ∨ f = "username")
    (hmem : "email" ∈ check (some email) (some username)) :
    ∃ out, registration_post check create data = Except.ok out ∧
      out.status = 409 ∧
      ("email", [EMAIL_CONFLICT_MSG email]) ∈ out.body ∧
      mentions (EMAIL_CONFLICT_MSG email) email ∧
      ("username" ∈ check (some email) (some username) →
        ("username", [USERNAME_CONFLICT_MSG username]) ∈ out.body ∧
        mentions (USERNAME_CONFLICT_MSG username) username) := by
  have hne : check (some email) (some username) ≠ [] := by
    intro h0
    rw [h0] at hmem
    exact List.not_mem_nil _ hmem
  obtain ⟨errors, herrors, hmemerr⟩ :=
    conflict_mapM_ok
      [ ("email", EMAIL_CONFLICT_MSG ((some email).getD "None"))
      , ("username", USERNAME_CONFLICT_MSG ((some username).getD "None")) ]
      (check (some email) (some username))
      (fun f hf => by
        rcases hsub f hf with hfe | hfu
        · subst hfe
          exact ⟨_, rfl⟩
        · subst hfu
          exact ⟨_, rfl⟩)
  refine ⟨{ status := 409, body := errors }, ?_, rfl, ?_, ?_, ?_⟩
  · simp only [registration_post, hemail, husername, ne_eq, hne, not_false_eq_true,
      if_true, reduceIte, herrors, Except.map]
  · exact hmemerr "email" (EMAIL_CONFLICT_MSG email) hmem rfl
  · exact ⟨"It looks like ",
      " belongs to an existing account. Try again with a different email address.", rfl⟩
  · intro humem
    refine ⟨hmemerr "username" (USERNAME_CONFLICT_MSG username) humem rfl, ?_⟩
    exact ⟨"It looks like ",
      " belongs to an existing account. Try again with a different username.", rfl⟩

/-- Witness for C6: both the email and the username conflict. -/
theorem email_conflict_returns_409_witness :
    ∃ out, registration_post (fun _ _ => ["email", "username"]) (fun _ => AccountResult.ok)
        [("email", "jane@example.com"), ("username", "jane")] = Except.ok out ∧
      out.status = 409 ∧
      ("email", [EMAIL_CONFLICT_MSG "jane@example.com"]) ∈ out.body ∧
      mentions (EMAIL_CONFLICT_MSG "jane@example.com") "jane@example.com" ∧
      ("username" ∈ ["email", "username"] →
        ("username", [USERNAME_CONFLICT_MSG "jane"]) ∈ out.body ∧
        mentions (USERNAME_CONFLICT_MSG "jane") "jane") :=
  email_conflict_returns_409 (fun _ _ => ["email", "username"]) (fun _ => AccountResult.ok)
    [("email", "jane@example.com"), ("username", "jane")] "jane@example.com" "jane"
    rfl rfl (by decide) (by decide)

end UserApi

namespace UserApi

/-! ### Structural lemmas about form descriptions and the field handlers -/

theorem add_field_field_overrides (fd : FormDescription) (f : FormField) :
    (fd.add_field f).field_overrides = fd.field_overrides := rfl

theorem add_field_fields (fd : FormDescription) (f : FormField) :
    (fd.add_field f).fields =
      fd.fields ++ [applyOverrideOpt (assocLookup fd.field_overrides f.name) f] := rfl

theorem override_field_properties_fields (fd : FormDescription) (n : String) (ov : Override) :
    (fd.override_field_properties n ov).fields = fd.fields := rfl

theorem applyOverrideOpt_name (o : Option Override) (f : FormField) :
    (applyOverrideOpt o f).name = f.name := by
  cases o <;> rfl

theorem field_handler_on_email (st : ViewState) (fd : FormDescription) (required : Bool) :
    field_handler st "email" fd required = add_email_field fd required := by
  unfold field_handler
  rfl

theorem field_handler_on_name (st : ViewState) (fd : FormDescription) (required : Bool) :
    field_handler st "name" fd required = add_name_field fd required := by
  unfold field_handler
  rfl

theorem field_handler_on_username (st : ViewState) (fd : FormDescription) (required : Bool) :
    field_handler st "username" fd required = add_username_field fd required := by
  unfold field_handler
  rfl

theorem field_handler_on_password (st : ViewState) (fd : FormDescription) (required : Bool) :
    field_handler st "password" fd required = add_password_field fd required := by
  unfold field_handler
  rfl

theorem field_handler_on_confirm_email (st : ViewState) (fd : FormDescription) (required : Bool) :
    field_handler st "confirm_email" fd required = add_confirm_email_field fd required := by
  unfold field_handler
  rfl

theorem field_handler_on_first_name (st : ViewState) (fd : FormDescription) (required : Bool) :
    field_handler st "first_name" fd required = add_first_name_field fd required := by
  unfold field_handler
  rfl

theorem field_handler_on_last_name (st : ViewState) (fd : FormDescription) (required : Bool) :
    field_handler st "last_name" fd required = add_last_name_field fd required := by
  unfold field_handler
  rfl

theorem field_handler_on_city (st : ViewState) (fd : FormDescription) (required : Bool) :
    field_handler st "city" fd required = add_city_field fd required := by
  unfold field_handler
  rfl

theorem field_handler_on_state (st : ViewState) (fd : FormDescription) (required : Bool) :
    field_handler st "state" fd required = add_state_field fd required := by
  unfold field_handler
  rfl

theorem field_handler_on_country (st : ViewState) (fd : FormDescription) (required : Bool) :
    field_handler st "country" fd required = add_country_field fd required := by
  unfold field_handler
  rfl

theorem field_handler_on_gender (st : ViewState) (fd : FormDescription) (required : Bool) :
    field_handler st "gender" fd required = add_gender_field fd required := by
  unfold field_handler
  rfl

theorem field_handler_on_year_of_birth (st : ViewState) (fd : FormDescription) (required : Bool) :
    field_handler st "year_of_birth" fd required = add_year_of_birth_field fd required := by
  unfold field_handler
  rfl

theorem field_handler_on_level_of_education (st : ViewState) (fd : FormDescription) (required : Bool) :
    field_handler st "level_of_education" fd required = add_level_of_education_field fd required := by
  unfold field_handler
  rfl

theorem field_handler_on_company (st : ViewState) (fd : FormDescription) (required : Bool) :
    field_handler st "company" fd required = add_company_field fd required := by
  unfold field_handler
  rfl

theorem field_handler_on_title (st : ViewState) (fd : FormDescription) (required : Bool) :
    field_handler st "title" fd required = add_title_field fd required := by
  unfold field_handler
  rfl

theorem field_handler_on_mailing_address (st : ViewState) (fd : FormDescription) (required : Bool) :
    field_handler st "mailing_address" fd required = add_mailing_address_field fd required := by
  unfold field_handler
  rfl

theorem field_handler_on_goals (st : ViewState) (fd : FormDescription) (required : Bool) :
    field_handler st "goals" fd required = add_goals_field fd required := by
  unfold field_handler
  rfl

theorem field_handler_on_honor_code (st : ViewState) (fd : FormDescription) (required : Bool) :
    field_handler st "honor_code" fd required = add_honor_code_field st fd required := by
  unfold field_handler
  rfl

theorem field_handler_on_terms_of_service (st : ViewState) (fd : FormDescription) (required : Bool) :
    field_handler st "terms_of_service" fd required = add_terms_of_service_field fd required := by
  unfold field_handler
  rfl

end UserApi

namespace UserApi

theorem country_default_override_fields (fd : FormDescription) (o : Option FieldDefault) :
    (country_default_override fd o).fields = fd.fields := by
  rcases o with _ | d
  · rfl
  · rcases d with _ | b | s
    · rfl
    · rfl
    · by_cases hs : s ≠ ""
      · simp only [country_default_override, if_pos hs]
        rfl
      · simp only [country_default_override, if_neg hs]

theorem country_default_override_overrides_nil (fd : FormDescription)
    (h : fd.field_overrides = []) :
    country_default_override fd
      ((assocLookup fd.field_overrides "country").bind (fun ov => ov.defaultValue)) = fd := by
  rw [h]
  rfl

/-- A field handler for a valid field name never touches an empty override
store. -/
theorem field_handler_overrides_nil (st : ViewState) (fname : String)
    (fd : FormDescription) (req : Bool) (hval : fname ∈ valid_fields)
    (h : fd.field_overrides = []) :
    (field_handler st fname fd req).field_overrides = [] := by
  obtain ⟨method, action, fields, ovs⟩ := fd
  dsimp only at h
  subst h
  simp only [valid_fields, DEFAULT_FIELDS, EXTRA_FIELDS, List.mem_append,
    List.mem_cons, List.not_mem_nil, or_false] at hval
  rcases hval with ((rfl | rfl | rfl | rfl) |
    (rfl | rfl | rfl | rfl | rfl | rfl | rfl | rfl | rfl | rfl | rfl | rfl | rfl | rfl | rfl))
  all_goals
    simp only [field_handler_on_email, field_handler_on_name,
      field_handler_on_username, field_handler_on_password, field_handler_on_confirm_email,
      field_handler_on_first_name, field_handler_on_last_name, field_handler_on_city,
      field_handler_on_state, field_handler_on_country, field_handler_on_gender,
      field_handler_on_year_of_birth, field_handler_on_level_of_education,
      field_handler_on_company, field_handler_on_title, field_handler_on_mailing_address,
      field_handler_on_goals, field_handler_on_honor_code, field_handler_on_terms_of_service]
  all_goals rfl

/-- A field handler for a valid field name keeps every field already
present. -/
theorem field_handler_fields_mem (st : ViewState) (fname : String)
    (fd : FormDescription) (req : Bool) (fld : FormField)
    (hval : fname ∈ valid_fields) (hmem : fld ∈ fd.fields) :
    fld ∈ (field_handler st fname fd req).fields := by
  simp only [valid_fields, DEFAULT_FIELDS, EXTRA_FIELDS, List.mem_append,
    List.mem_cons, List.not_mem_nil, or_false] at hval
  rcases hval with ((rfl | rfl | rfl | rfl) |
    (rfl | rfl | rfl | rfl | rfl | rfl | rfl | rfl | rfl | rfl | rfl | rfl | rfl | rfl | rfl))
  all_goals
    simp only [field_handler_on_email, field_handler_on_name,
      field_handler_on_username, field_handler_on_password, field_handler_on_confirm_email,
      field_handler_on_first_name, field_handler_on_last_name, field_handler_on_city,
      field_handler_on_state, field_handler_on_country, field_handler_on_gender,
      field_handler_on_year_of_birth, field_handler_on_level_of_education,
      field_handler_on_company, field_handler_on_title, field_handler_on_mailing_address,
      field_handler_on_goals, field_handler_on_honor_code, field_handler_on_terms_of_service]
  all_goals try exact List.mem_append_left _ hmem
  all_goals
    (rw [add_country_field, add_field_fields, country_default_override_fields]
     exact List.mem_append_left _ hmem)

/-- When the override store is empty, the handler for a valid field name
adds a field carrying that name and the requested required flag. -/
theorem field_handler_adds_required (st : ViewState) (fname : String)
    (fd : FormDescription) (req : Bool) (hval : fname ∈ valid_fields)
    (h : fd.field_overrides = []) :
    ∃ fld ∈ (field_handler st fname fd req).fields,
      fld.name = fname ∧ fld.required = req := by
  obtain ⟨method, action, fields, ovs⟩ := fd
  dsimp only at h
  subst h
  simp only [valid_fields, DEFAULT_FIELDS, EXTRA_FIELDS, List.mem_append,
    List.mem_cons, List.not_mem_nil, or_false] at hval
  rcases hval with ((rfl | rfl | rfl | rfl) |
    (rfl | rfl | rfl | rfl | rfl | rfl | rfl | rfl | rfl | rfl | rfl | rfl | rfl | rfl | rfl))
  all_goals
    simp only [field_handler_on_email, field_handler_on_name,
      field_handler_on_username, field_handler_on_password, field_handler_on_confirm_email,
      field_handler_on_first_name, field_handler_on_last_name, field_handler_on_city,
      field_handler_on_state, field_handler_on_country, field_handler_on_gender,
      field_handler_on_year_of_birth, field_handler_on_level_of_education,
      field_handler_on_company, field_handler_on_title, field_handler_on_mailing_address,
      field_handler_on_goals, field_handler_on_honor_code, field_handler_on_terms_of_service]
  all_goals
    exact ⟨_, List.mem_append_right _ (List.mem_singleton_self _), rfl, rfl⟩

/-- The handler for a valid field name always adds a field carrying that
name (overrides cannot rename a field). -/
theorem field_handler_adds_name (st : ViewState) (fname : String)
    (fd : FormDescription) (req : Bool) (hval : fname ∈ valid_fields) :
    ∃ fld ∈ (field_handler st fname fd req).fields, fld.name = fname := by
  simp only [valid_fields, DEFAULT_FIELDS, EXTRA_FIELDS, List.mem_append,
    List.mem_cons, List.not_mem_nil, or_false] at hval
  rcases hval with ((rfl | rfl | rfl | rfl) |
    (rfl | rfl | rfl | rfl | rfl | rfl | rfl | rfl | rfl | rfl | rfl | rfl | rfl | rfl | rfl))
  all_goals
    simp only [field_handler_on_email, field_handler_on_name,
      field_handler_on_username, field_handler_on_password, field_handler_on_confirm_email,
      field_handler_on_first_name, field_handler_on_last_name, field_handler_on_city,
      field_handler_on_state, field_handler_on_country, field_handler_on_gender,
      field_handler_on_year_of_birth, field_handler_on_level_of_education,
      field_handler_on_company, field_handler_on_title, field_handler_on_mailing_address,
      field_handler_on_goals, field_handler_on_honor_code, field_handler_on_terms_of_service]
  all_goals
    exact ⟨_, List.mem_append_right _ (List.mem_singleton_self _),
      (applyOverrideOpt_name _ _).trans rfl⟩

end UserApi

namespace UserApi

/-! ### Fold lemmas for the field loops of `RegistrationView.get` -/

theorem reg_order_step_overrides_nil (st : ViewState) (fd : FormDescription) (g : String)
    (hval : g ∈ valid_fields) (h : fd.field_overrides = []) :
    (reg_order_step st fd g).field_overrides = [] := by
  unfold reg_order_step
  split
  · exact field_handler_overrides_nil st g fd true hval h
  · split
    · exact field_handler_overrides_nil st g fd _ hval h
    · exact h

theorem reg_order_step_mem (st : ViewState) (fd : FormDescription) (g : String)
    (fld : FormField) (hval : g ∈ valid_fields) (hmem : fld ∈ fd.fields) :
    fld ∈ (reg_order_step st fd g).fields := by
  unfold reg_order_step
  split
  · exact field_handler_fields_mem st g fd true fld hval hmem
  · split
    · exact field_handler_fields_mem st g fd _ fld hval hmem
    · exact hmem

theorem foldl_order_mem (st : ViewState) (l : List String) (fd : FormDescription)
    (fld : FormField) (hval : ∀ x ∈ l, x ∈ valid_fields) (hmem : fld ∈ fd.fields) :
    fld ∈ (l.foldl (reg_order_step st) fd).fields := by
  induction l generalizing fd with
  | nil => exact hmem
  | cons g rest ih =>
    rw [List.foldl_cons]
    exact ih _ (fun x hx => hval x (List.mem_cons_of_mem g hx))
      (reg_order_step_mem st fd g fld (hval g (List.mem_cons_self g rest)) hmem)

theorem foldl_order_overrides_nil (st : ViewState) (l : List String) (fd : FormDescription)
    (hval : ∀ x ∈ l, x ∈ valid_fields) (h : fd.field_overrides = []) :
    ((l.foldl (reg_order_step st) fd)).field_overrides = [] := by
  induction l generalizing fd with
  | nil => exact h
  | cons g rest ih =>
    rw [List.foldl_cons]
    exact ih _ (fun x hx => hval x (List.mem_cons_of_mem g hx))
      (reg_order_step_overrides_nil st fd g (hval g (List.mem_cons_self g rest)) h)

/-- Walking the field order over an empty override store adds the field
`name` with the required flag the source computes for it: `true` for a
default field, the configured requiredness for a visible extra field. -/
theorem foldl_order_adds (st : ViewState) (l : List String) (fd : FormDescription)
    (name : String) (r : Bool)
    (hval : ∀ x ∈ l, x ∈ valid_fields)
    (h : fd.field_overrides = [])
    (hname : name ∈ l)
    (hr : (if strMem DEFAULT_FIELDS name = true then some true
           else if is_field_visible st name = true then some (is_field_required st name)
           else none) = some r) :
    ∃ fld ∈ (l.foldl (reg_order_step st) fd).fields,
      fld.name = name ∧ fld.required = r := by
  induction l generalizing fd with
  | nil => cases hname
  | cons g rest ih =>
    rw [List.foldl_cons]
    rcases List.mem_cons.mp hname with hg | hrest
    · subst hg
      have hvg : name ∈ valid_fields := hval name (List.mem_cons_self name rest)
      have hstep : ∃ fld ∈ (reg_order_step st fd name).fields,
          fld.name = name ∧ fld.required = r := by
        unfold reg_order_step
        by_cases hd : strMem DEFAULT_FIELDS name = true
        · rw [if_pos hd] at hr ⊢
          rw [Option.some.injEq] at hr
          subst hr
          exact field_handler_adds_required st name fd true hvg h
        · rw [if_neg hd] at hr ⊢
          by_cases hv : is_field_visible st name = true
          · rw [if_pos hv] at hr ⊢
            rw [Option.some.injEq] at hr
            subst hr
            exact field_handler_adds_required st name fd _ hvg h
          · rw [if_neg hv] at hr
            cases hr
      obtain ⟨fld, hf1, hf2, hf3⟩ := hstep
      exact ⟨fld, foldl_order_mem st rest _ fld
        (fun x hx => hval x (List.mem_cons_of_mem name hx)) hf1, hf2, hf3⟩
    · exact ih _ (fun x hx => hval x (List.mem_cons_of_mem g hx))
        (reg_order_step_overrides_nil st fd g (hval g (List.mem_cons_self g rest)) h) hrest

theorem reg_extra_step_overrides_nil (st : ViewState) (fd : FormDescription) (g : String)
    (hval : g ∈ valid_fields) (h : fd.field_overrides = []) :
    (reg_extra_step st fd g).field_overrides = [] := by
  unfold reg_extra_step
  split
  · exact field_handler_overrides_nil st g fd _ hval h
  · exact h

theorem reg_extra_step_mem (st : ViewState) (fd : FormDescription) (g : String)
    (fld : FormField) (hval : g ∈ valid_fields) (hmem : fld ∈ fd.fields) :
    fld ∈ (reg_extra_step st fd g).fields := by
  unfold reg_extra_step
  split
  · exact field_handler_fields_mem st g fd _ fld hval hmem
  · exact hmem

theorem foldl_extra_mem (st : ViewState) (l : List String) (fd : FormDescription)
    (fld : FormField) (hval : ∀ x ∈ l, x ∈ valid_fields) (hmem : fld ∈ fd.fields) :
    fld ∈ (l.foldl (reg_extra_step st) fd).fields := by
  induction l generalizing fd with
  | nil => exact hmem
  | cons g rest ih =>
    rw [List.foldl_cons]
    exact ih _ (fun x hx => hval x (List.mem_cons_of_mem g hx))
      (reg_extra_step_mem st fd g fld (hval g (List.mem_cons_self g rest)) hmem)

/-- The extra-fields loop of the custom-form branch adds every visible
extra field with its configured requiredness. -/
theorem foldl_extra_adds (st : ViewState) (l : List String) (fd : FormDescription)
    (name : String)
    (hval : ∀ x ∈ l, x ∈ valid_fields)
    (h : fd.field_overrides = [])
    (hname : name ∈ l)
    (hvis : is_field_visible st name = true) :
    ∃ fld ∈ (l.foldl (reg_extra_step st) fd).fields,
      fld.name = name ∧ fld.required = is_field_required st name := by
  induction l generalizing fd with
  | nil => cases hname
  | cons g rest ih =>
    rw [List.foldl_cons]
    rcases List.mem_cons.mp hname with hg | hrest
    · subst hg
      have hvg : name ∈ valid_fields := hval name (List.mem_cons_self name rest)
      have hstep : ∃ fld ∈ (reg_extra_step st fd name).fields,
          fld.name = name ∧ fld.required = is_field_required st name := by
        unfold reg_extra_step
        rw [if_pos hvis]
        exact field_handler_adds_required st name fd _ hvg h
      obtain ⟨fld, hf1, hf2, hf3⟩ := hstep
      exact ⟨fld, foldl_extra_mem st rest _ fld
        (fun x hx => hval x (List.mem_cons_of_mem name hx)) hf1, hf2, hf3⟩
    · exact ih _ (fun x hx => hval x (List.mem_cons_of_mem g hx))
        (reg_extra_step_overrides_nil st fd g (hval g (List.mem_cons_self g rest)) h) hrest

theorem reg_default_step_mem (st : ViewState) (fd : FormDescription) (g : String)
    (fld : FormField) (hval : g ∈ valid_fields) (hmem : fld ∈ fd.fields) :
    fld ∈ (reg_default_step st fd g).fields :=
  field_handler_fields_mem st g fd true fld hval hmem

theorem foldl_default_mem (st : ViewState) (l : List String) (fd : FormDescription)
    (fld : FormField) (hval : ∀ x ∈ l, x ∈ valid_fields) (hmem : fld ∈ fd.fields) :
    fld ∈ (l.foldl (reg_default_step st) fd).fields := by
  induction l generalizing fd with
  | nil => exact hmem
  | cons g rest ih =>
    rw [List.foldl_cons]
    exact ih _ (fun x hx => hval x (List.mem_cons_of_mem g hx))
      (reg_default_step_mem st fd g fld (hval g (List.mem_cons_self g rest)) hmem)

theorem foldl_default_overrides_nil (st : ViewState) (l : List String)
    (fd : FormDescription) (hval : ∀ x ∈ l, x ∈ valid_fields)
    (h : fd.field_overrides = []) :
    ((l.foldl (reg_default_step st) fd)).field_overrides = [] := by
  induction l generalizing fd with
  | nil => exact h
  | cons g rest ih =>
    rw [List.foldl_cons]
    exact ih _ (fun x hx => hval x (List.mem_cons_of_mem g hx))
      (field_handler_overrides_nil st g fd true (hval g (List.mem_cons_self g rest)) h)

/-- The default-fields loop of the custom-form branch adds every default
field as required. -/
theorem foldl_default_adds (st : ViewState) (l : List String) (fd : FormDescription)
    (name : String)
    (hval : ∀ x ∈ l, x ∈ valid_fields)
    (h : fd.field_overrides = [])
    (hname : name ∈ l) :
    ∃ fld ∈ (l.foldl (reg_default_step st) fd).fields,
      fld.name = name ∧ fld.required = true := by
  induction l generalizing fd with
  | nil => cases hname
  | cons g rest ih =>
    rw [List.foldl_cons]
    rcases List.mem_cons.mp hname with hg | hrest
    · subst hg
      obtain ⟨fld, hf1, hf2, hf3⟩ :=
        field_handler_adds_required st name fd true
          (hval name (List.mem_cons_self name rest)) h
      exact ⟨fld, foldl_default_mem st rest _ fld
        (fun x hx => hval x (List.mem_cons_of_mem name hx)) hf1, hf2, hf3⟩
    · exact ih _ (fun x hx => hval x (List.mem_cons_of_mem g hx))
        (field_handler_overrides_nil st g fd true (hval g (List.mem_cons_self g rest)) h) hrest

/-- Rewriting lemma: `Except` bind on a success. -/
theorem except_bind_ok {a b g : Type} (x : a) (f : a → Except g b) :
    (Except.ok x >>= f) = f x := rfl

/-- Rewriting lemma: `Except` bind on an error. -/
theorem except_bind_error {a b g : Type} (e : g) (f : a → Except g b) :
    ((Except.error e : Except g a) >>= f) = Except.error e := rfl

/-- A successful `add_custom_field` appends one field and leaves the
override store untouched. -/
theorem add_custom_field_ok (cf : CustomForm) (fd : FormDescription) (c : CustomField)
    (fd' : FormDescription) (hok : add_custom_field cf fd c = Except.ok fd') :
    (∀ fld ∈ fd.fields, fld ∈ fd'.fields) ∧ fd'.field_overrides = fd.field_overrides := by
  unfold add_custom_field at hok
  dsimp only at hok
  rcases hopt : ((assocLookup cf.serialization_options c.name).getD
      { field_type := none, defaultValue := none,
        include_default_option := none }).field_type with _ | t
  · rw [hopt] at hok
    rcases hmt : c.mapped_field_type with _ | t
    · rw [hmt] at hok
      cases hok
    · rw [hmt] at hok
      split at hok
      · cases hok
      · split at hok
        · cases hok
        · rw [Except.ok.injEq] at hok
          subst hok
          exact ⟨fun fld hm => List.mem_append_left _ hm, rfl⟩
  · rw [hopt] at hok
    split at hok
    · cases hok
    · split at hok
      · cases hok
      · rw [Except.ok.injEq] at hok
        subst hok
        exact ⟨fun fld hm => List.mem_append_left _ hm, rfl⟩

/-- A successful pass over the custom form's fields keeps every field
already present and leaves the override store untouched. -/
theorem custom_foldlM_mem (cf : CustomForm) (l : List CustomField)
    (fd fd' : FormDescription)
    (hok : l.foldlM (add_custom_field cf) fd = Except.ok fd') :
    (∀ fld ∈ fd.fields, fld ∈ fd'.fields) ∧ fd'.field_overrides = fd.field_overrides := by
  induction l generalizing fd with
  | nil =>
    have hok' : Except.ok fd = Except.ok fd' := hok
    rw [Except.ok.injEq] at hok'
    subst hok'
    exact ⟨fun fld hm => hm, rfl⟩
  | cons c rest ih =>
    rw [List.foldlM_cons] at hok
    cases hc : add_custom_field cf fd c with
    | error e =>
      rw [hc, except_bind_error] at hok
      cases hok
    | ok fd1 =>
      rw [hc, except_bind_ok] at hok
      obtain ⟨hmem1, hov1⟩ := add_custom_field_ok cf fd c fd1 hc
      obtain ⟨hmem2, hov2⟩ := ih fd1 hok
      exact ⟨fun fld hm => hmem2 fld (hmem1 fld hm), hov2.trans hov1⟩

end UserApi

namespace UserApi

/-! ### Characterizing `registration_init` and field presence in `registration_get` -/

theorem sameSet_mem_rev {a b : List String} (h : sameSet a b = true) {x : String}
    (hx : x ∈ b) : x ∈ a := by
  unfold sameSet at h
  rw [Bool.and_eq_true] at h
  exact (strMem_iff a x).mp ((List.all_eq_true.mp h.2) x hx)

/-- A successful construction yields the honor-code-defaulted setting and a
field order whose set of names is exactly the valid field set. -/
theorem registration_init_ok (extra : List (String × String)) (order : List String)
    (st : ViewState) (h : registration_init extra order = Except.ok st) :
    st.extra_fields_setting =
      assocSet extra "honor_code" (assocLookupD extra "honor_code" "required") ∧
    sameSet valid_fields st.field_order = true := by
  unfold registration_init at h
  dsimp only at h
  by_cases hall : (EXTRA_FIELDS.all fun field_name =>
      strMem ["required", "optional", "hidden"]
        (assocLookupD
          (assocSet extra "honor_code" (assocLookupD extra "honor_code" "required"))
          field_name "hidden")) = true
  · rw [if_pos hall, Except.ok.injEq] at h
    subst h
    refine ⟨rfl, ?_⟩
    dsimp only
    by_cases hss : sameSet valid_fields
        (if order.isEmpty = true then valid_fields else order) = true
    · rw [if_pos hss]
      exact hss
    · rw [if_neg hss]
      exact sameSet_refl valid_fields
  · rw [if_neg hall] at h
    cases h

theorem apply_no_tpa (x : FormDescription) :
    apply_third_party_auth_overrides no_tpa_context x = x := rfl

theorem mem_valid_of_default {name : String} (hd : name ∈ DEFAULT_FIELDS) :
    name ∈ valid_fields := by
  rw [valid_fields]
  exact List.mem_append_left _ hd

theorem mem_valid_of_extra {name : String} (he : name ∈ EXTRA_FIELDS) :
    name ∈ valid_fields := by
  rw [valid_fields]
  exact List.mem_append_right _ he

/-- The field-order walk contains a field for every default name in the
order, whatever the override store holds. -/
theorem foldl_order_adds_name (st : ViewState) (l : List String) (fd : FormDescription)
    (name : String) (hval : ∀ x ∈ l, x ∈ valid_fields)
    (hname : name ∈ l) (hd : strMem DEFAULT_FIELDS name = true) :
    ∃ fld ∈ (l.foldl (reg_order_step st) fd).fields, fld.name = name := by
  induction l generalizing fd with
  | nil => cases hname
  | cons g rest ih =>
    rw [List.foldl_cons]
    rcases List.mem_cons.mp hname with hg | hrest
    · subst hg
      have hstep : ∃ fld ∈ (reg_order_step st fd name).fields, fld.name = name := by
        unfold reg_order_step
        rw [if_pos hd]
        exact field_handler_adds_name st name fd true (hval name (List.mem_cons_self name rest))
      obtain ⟨fld, hf1, hf2⟩ := hstep
      exact ⟨fld, foldl_order_mem st rest _ fld
        (fun x hx => hval x (List.mem_cons_of_mem name hx)) hf1, hf2⟩
    · exact ih _ (fun x hx => hval x (List.mem_cons_of_mem g hx)) hrest

/-- The default-fields loop contains a field for every name in it,
whatever the override store holds. -/
theorem foldl_default_adds_name (st : ViewState) (l : List String) (fd : FormDescription)
    (name : String) (hval : ∀ x ∈ l, x ∈ valid_fields) (hname : name ∈ l) :
    ∃ fld ∈ (l.foldl (reg_default_step st) fd).fields, fld.name = name := by
  induction l generalizing fd with
  | nil => cases hname
  | cons g rest ih =>
    rw [List.foldl_cons]
    rcases List.mem_cons.mp hname with hg | hrest
    · subst hg
      obtain ⟨fld, hf1, hf2⟩ :=
        field_handler_adds_name st name fd true (hval name (List.mem_cons_self name rest))
      exact ⟨fld, foldl_default_mem st rest _ fld
        (fun x hx => hval x (List.mem_cons_of_mem name hx)) hf1, hf2⟩
    · exact ih _ (fun x hx => hval x (List.mem_cons_of_mem g hx)) hrest

/-- With no third-party auth, the generated form contains every default
field of the field order, marked required — in both the custom-form and the
plain branch.  The hypothesis on the field order's names holds for every
constructor-produced state. -/
theorem registration_get_adds_default (st : ViewState) (cf : Option CustomForm)
    (fd : FormDescription) (name : String)
    (hd : name ∈ DEFAULT_FIELDS)
    (hordv : ∀ x ∈ st.field_order, x ∈ valid_fields)
    (horder : name ∈ st.field_order)
    (hget : registration_get st no_tpa_context cf = Except.ok fd) :
    ∃ fld ∈ fd.fields, fld.name = name ∧ fld.required = true := by
  rcases cf with _ | c
  · unfold registration_get at hget
    dsimp only [apply_no_tpa] at hget
    rw [Except.ok.injEq] at hget
    subst hget
    refine foldl_order_adds st st.field_order _ name true hordv rfl horder ?_
    rw [if_pos ((strMem_iff DEFAULT_FIELDS name).mpr hd)]
  · unfold registration_get at hget
    dsimp only [apply_no_tpa] at hget
    cases hfm : c.fields.foldlM (add_custom_field c)
        (DEFAULT_FIELDS.foldl (reg_default_step st)
          { method := "post", action := reverse "user_api_registration" }) with
    | error e =>
      rw [hfm, except_bind_error] at hget
      cases hget
    | ok fd2 =>
      rw [hfm, except_bind_ok] at hget
      have hget' : Except.ok (EXTRA_FIELDS.foldl (reg_extra_step st) fd2) =
          Except.ok fd := hget
      rw [Except.ok.injEq] at hget'
      subst hget'
      obtain ⟨fld, hf1, hf2, hf3⟩ :=
        foldl_default_adds st DEFAULT_FIELDS
          { method := "post", action := reverse "user_api_registration" } name
          (fun x hx => mem_valid_of_default hx) rfl hd
      obtain ⟨hmem2, _⟩ := custom_foldlM_mem c c.fields _ fd2 hfm
      exact ⟨fld, foldl_extra_mem st EXTRA_FIELDS fd2 fld
        (fun x hx => mem_valid_of_extra hx) (hmem2 fld hf1), hf2, hf3⟩

/-- With no third-party auth, the generated form contains every visible
extra field of the field order with its configured requiredness. -/
theorem registration_get_adds_extra (st : ViewState) (cf : Option CustomForm)
    (fd : FormDescription) (name : String)
    (he : name ∈ EXTRA_FIELDS) (hnd : strMem DEFAULT_FIELDS name = false)
    (hvis : is_field_visible st name = true)
    (hordv : ∀ x ∈ st.field_order, x ∈ valid_fields)
    (horder : name ∈ st.field_order)
    (hget : registration_get st no_tpa_context cf = Except.ok fd) :
    ∃ fld ∈ fd.fields, fld.name = name ∧
      fld.required = is_field_required st name := by
  rcases cf with _ | c
  · unfold registration_get at hget
    dsimp only [apply_no_tpa] at hget
    rw [Except.ok.injEq] at hget
    subst hget
    refine foldl_order_adds st st.field_order _ name (is_field_required st name)
      hordv rfl horder ?_
    rw [if_neg (by rw [hnd]; exact Bool.false_ne_true), if_pos hvis]
  · unfold registration_get at hget
    dsimp only [apply_no_tpa] at hget
    cases hfm : c.fields.foldlM (add_custom_field c)
        (DEFAULT_FIELDS.foldl (reg_default_step st)
          { method := "post", action := reverse "user_api_registration" }) with
    | error e =>
      rw [hfm, except_bind_error] at hget
      cases hget
    | ok fd2 =>
      rw [hfm, except_bind_ok] at hget
      have hget' : Except.ok (EXTRA_FIELDS.foldl (reg_extra_step st) fd2) =
          Except.ok fd := hget
      rw [Except.ok.injEq] at hget'
      subst hget'
      have hnil2 : fd2.field_overrides = [] := by
        obtain ⟨_, hov⟩ := custom_foldlM_mem c c.fields _ fd2 hfm
        rw [hov]
        exact foldl_default_overrides_nil st DEFAULT_FIELDS _
          (fun x hx => mem_valid_of_default hx) rfl
      exact foldl_extra_adds st EXTRA_FIELDS fd2 name
        (fun x hx => mem_valid_of_extra hx) hnil2 he hvis

end UserApi

namespace UserApi

/-! ### Claims C1 and C9 -/

/-- C1: for every configuration of the extra fields and the field order,
with or without a custom extension form, every default field (email, name,
username, password) appears in the generated registration form description
marked required — the constructor resets the order to the full valid field
set whenever the configured order's name set differs from it, so a default
field can never be dropped. -/
theorem default_fields_always_present (extra : List (String × String))
    (order : List String) (cf : Option CustomForm) (st : ViewState)
    (fd : FormDescription)
    (hinit : registration_init extra order = Except.ok st)
    (hget : registration_get st no_tpa_context cf = Except.ok fd) :
    ∀ name ∈ DEFAULT_FIELDS,
      ∃ fld ∈ fd.fields, fld.name = name ∧ fld.required = true := by
  intro name hd
  obtain ⟨_, hss⟩ := registration_init_ok extra order st hinit
  exact registration_get_adds_default st cf fd name hd
    (fun x hx => sameSet_mem_rev hss hx)
    (sameSet_mem hss (mem_valid_of_default hd)) hget

/-- Witness for C1 at the empty configuration without a custom form. -/
theorem default_fields_always_present_witness :
    ∃ st fd, registration_init [] [] = Except.ok st ∧
      registration_get st no_tpa_context none = Except.ok fd ∧
      ∀ name ∈ DEFAULT_FIELDS,
        ∃ fld ∈ fd.fields, fld.name = name ∧ fld.required = true :=
  ⟨_, _, rfl, rfl, default_fields_always_present [] [] none _ _ rfl rfl⟩

/-- C9: when the configuration has no "honor_code" key, the constructor
sets its visibility to "required", and the generated form contains the
honor-code field marked required. -/
theorem honor_code_defaults_required (extra : List (String × String))
    (order : List String) (st : ViewState) (cf : Option CustomForm)
    (fd : FormDescription)
    (hhc : assocLookup extra "honor_code" = none)
    (hinit : registration_init extra order = Except.ok st)
    (hget : registration_get st no_tpa_context cf = Except.ok fd) :
    assocLookup st.extra_fields_setting "honor_code" = some "required" ∧
    ∃ fld ∈ fd.fields, fld.name = "honor_code" ∧ fld.required = true := by
  obtain ⟨hefs, hss⟩ := registration_init_ok extra order st hinit
  have hlook : assocLookup st.extra_fields_setting "honor_code" = some "required" := by
    rw [hefs, assocLookup_set_self, assocLookupD, hhc]
    rfl
  refine ⟨hlook, ?_⟩
  have hvis : is_field_visible st "honor_code" = true := by
    unfold is_field_visible
    rw [hlook]
    rfl
  have hreq : is_field_required st "honor_code" = true := by
    unfold is_field_required
    rw [hlook]
    rfl
  have he : "honor_code" ∈ EXTRA_FIELDS := by decide
  have hnd : strMem DEFAULT_FIELDS "honor_code" = false := by decide
  obtain ⟨fld, h1, h2, h3⟩ := registration_get_adds_extra st cf fd "honor_code" he hnd hvis
    (fun x hx => sameSet_mem_rev hss hx)
    (sameSet_mem hss (mem_valid_of_extra he)) hget
  exact ⟨fld, h1, h2, h3.trans hreq⟩

/-- Witness for C9 at a configuration that sets only the gender field. -/
theorem honor_code_defaults_required_witness :
    ∃ st fd, registration_init [("gender", "optional")] [] = Except.ok st ∧
      registration_get st no_tpa_context none = Except.ok fd ∧
      (assocLookup st.extra_fields_setting "honor_code" = some "required" ∧
       ∃ fld ∈ fd.fields, fld.name = "honor_code" ∧ fld.required = true) :=
  ⟨_, _, rfl, rfl,
    honor_code_defaults_required [("gender", "optional")] [] _ none _ rfl rfl rfl⟩

end UserApi

namespace UserApi

/-! ### An override invariant carried through `registration_get`

For claims C3 and C7 we track, for one field name, a property `P` of the
override record stored for it, and the property `Q` it forces on every
field of that name added afterwards. -/

def OvInv (name : String) (P : Override → Prop) (Q : FormField → Prop)
    (fd : FormDescription) : Prop :=
  (∃ ov, assocLookup fd.field_overrides name = some ov ∧ P ov) ∧
  (∀ fld ∈ fd.fields, fld.name = name → Q fld)

theorem ovinv_add_field (name : String) (P : Override → Prop) (Q : FormField → Prop)
    (hPQ : ∀ (g : FormField) ov, P ov → Q (applyOverride g ov))
    (fd : FormDescription) (f : FormField)
    (h : OvInv name P Q fd) : OvInv name P Q (fd.add_field f) := by
  obtain ⟨⟨ov, hov, hP⟩, hflds⟩ := h
  refine ⟨⟨ov, hov, hP⟩, ?_⟩
  intro fld hfld hname
  rw [add_field_fields] at hfld
  rcases List.mem_append.mp hfld with hold | hnew
  · exact hflds fld hold hname
  · rw [List.mem_singleton] at hnew
    subst hnew
    have hfname : f.name = name := by
      rw [← applyOverrideOpt_name (assocLookup fd.field_overrides f.name) f]
      exact hname
    rw [hfname, hov]
    exact hPQ f ov hP

theorem ovinv_override (name : String) (P : Override → Prop) (Q : FormField → Prop)
    (n : String) (ov' : Override)
    (hmerge : n = name → ∀ o, P o → P (Override.merge o ov'))
    (fd : FormDescription) (h : OvInv name P Q fd) :
    OvInv name P Q (fd.override_field_properties n ov') := by
  obtain ⟨⟨ov, hov, hP⟩, hflds⟩ := h
  constructor
  · by_cases hn : n = name
    · subst hn
      refine ⟨Override.merge ov ov', ?_, hmerge rfl ov hP⟩
      show assocLookup (assocUpdate Override.merge fd.field_overrides n ov') n = _
      rw [assocLookup_update_self, hov]
    · refine ⟨ov, ?_, hP⟩
      show assocLookup (assocUpdate Override.merge fd.field_overrides n ov') name = some ov
      rw [assocLookup_update_ne _ _ _ _ _ (fun hh => hn hh.symm)]
      exact hov
  · intro fld hfld hname
    exact hflds fld hfld hname

theorem ovinv_country_default_override (name : String) (P : Override → Prop)
    (Q : FormField → Prop)
    (hcountry : name = "country" →
      ∀ o (d : FieldDefault), P o → P (Override.merge o { defaultValue := some d }))
    (fd : FormDescription) (o : Option FieldDefault) (h : OvInv name P Q fd) :
    OvInv name P Q (country_default_override fd o) := by
  rcases o with _ | d
  · exact h
  · rcases d with _ | b | s
    · exact h
    · exact h
    · by_cases hs : s ≠ ""
      · simp only [country_default_override, if_pos hs]
        exact ovinv_override name P Q "country" _
          (fun hn o hP => hcountry hn.symm o _ hP) fd h
      · simp only [country_default_override, if_neg hs]
        exact h

theorem ovinv_field_handler (st : ViewState) (fname : String) (req : Bool)
    (name : String) (P : Override → Prop) (Q : FormField → Prop)
    (hPQ : ∀ (g : FormField) ov, P ov → Q (applyOverride g ov))
    (hcountry : name = "country" →
      ∀ o (d : FieldDefault), P o → P (Override.merge o { defaultValue := some d }))
    (fd : FormDescription) (hval : fname ∈ valid_fields)
    (h : OvInv name P Q fd) :
    OvInv name P Q (field_handler st fname fd req) := by
  simp only [valid_fields, DEFAULT_FIELDS, EXTRA_FIELDS, List.mem_append,
    List.mem_cons, List.not_mem_nil, or_false] at hval
  rcases hval with ((rfl | rfl | rfl | rfl) |
    (rfl | rfl | rfl | rfl | rfl | rfl | rfl | rfl | rfl | rfl | rfl | rfl | rfl | rfl | rfl))
  all_goals
    simp only [field_handler_on_email, field_handler_on_name,
      field_handler_on_username, field_handler_on_password, field_handler_on_confirm_email,
      field_handler_on_first_name, field_handler_on_last_name, field_handler_on_city,
      field_handler_on_state, field_handler_on_country, field_handler_on_gender,
      field_handler_on_year_of_birth, field_handler_on_level_of_education,
      field_handler_on_company, field_handler_on_title, field_handler_on_mailing_address,
      field_handler_on_goals, field_handler_on_honor_code, field_handler_on_terms_of_service]
  all_goals try exact ovinv_add_field name P Q hPQ _ _ h
  all_goals
    exact ovinv_add_field name P Q hPQ _ _
      (ovinv_country_default_override name P Q hcountry fd _ h)

theorem ovinv_reg_order_step (st : ViewState) (fd : FormDescription) (g : String)
    (name : String) (P : Override → Prop) (Q : FormField → Prop)
    (hPQ : ∀ (x : FormField) ov, P ov → Q (applyOverride x ov))
    (hcountry : name = "country" →
      ∀ o (d : FieldDefault), P o → P (Override.merge o { defaultValue := some d }))
    (hval : g ∈ valid_fields) (h : OvInv name P Q fd) :
    OvInv name P Q (reg_order_step st fd g) := by
  unfold reg_order_step
  split
  · exact ovinv_field_handler st g true name P Q hPQ hcountry fd hval h
  · split
    · exact ovinv_field_handler st g _ name P Q hPQ hcountry fd hval h
    · exact h

theorem ovinv_foldl_order (st : ViewState) (l : List String) (fd : FormDescription)
    (name : String) (P : Override → Prop) (Q : FormField → Prop)
    (hPQ : ∀ (x : FormField) ov, P ov → Q (applyOverride x ov))
    (hcountry : name = "country" →
      ∀ o (d : FieldDefault), P o → P (Override.merge o { defaultValue := some d }))
    (hval : ∀ x ∈ l, x ∈ valid_fields) (h : OvInv name P Q fd) :
    OvInv name P Q (l.foldl (reg_order_step st) fd) := by
  induction l generalizing fd with
  | nil => exact h
  | cons g rest ih =>
    rw [List.foldl_cons]
    exact ih _ (fun x hx => hval x (List.mem_cons_of_mem g hx))
      (ovinv_reg_order_step st fd g name P Q hPQ hcountry
        (hval g (List.mem_cons_self g rest)) h)

theorem ovinv_reg_extra_step (st : ViewState) (fd : FormDescription) (g : String)
    (name : String) (P : Override → Prop) (Q : FormField → Prop)
    (hPQ : ∀ (x : FormField) ov, P ov → Q (applyOverride x ov))
    (hcountry : name = "country" →
      ∀ o (d : FieldDefault), P o → P (Override.merge o { defaultValue := some d }))
    (hval : g ∈ valid_fields) (h : OvInv name P Q fd) :
    OvInv name P Q (reg_extra_step st fd g) := by
  unfold reg_extra_step
  split
  · exact ovinv_field_handler st g _ name P Q hPQ hcountry fd hval h
  · exact h

theorem ovinv_foldl_extra (st : ViewState) (l : List String) (fd : FormDescription)
    (name : String) (P : Override → Prop) (Q : FormField → Prop)
    (hPQ : ∀ (x : FormField) ov, P ov → Q (applyOverride x ov))
    (hcountry : name = "country" →
      ∀ o (d : FieldDefault), P o → P (Override.merge o { defaultValue := some d }))
    (hval : ∀ x ∈ l, x ∈ valid_fields) (h : OvInv name P Q fd) :
    OvInv name P Q (l.foldl (reg_extra_step st) fd) := by
  induction l generalizing fd with
  | nil => exact h
  | cons g rest ih =>
    rw [List.foldl_cons]
    exact ih _ (fun x hx => hval x (List.mem_cons_of_mem g hx))
      (ovinv_reg_extra_step st fd g name P Q hPQ hcountry
        (hval g (List.mem_cons_self g rest)) h)

theorem ovinv_foldl_default (st : ViewState) (l : List String) (fd : FormDescription)
    (name : String) (P : Override → Prop) (Q : FormField → Prop)
    (hPQ : ∀ (x : FormField) ov, P ov → Q (applyOverride x ov))
    (hcountry : name = "country" →
      ∀ o (d : FieldDefault), P o → P (Override.merge o { defaultValue := some d }))
    (hval : ∀ x ∈ l, x ∈ valid_fields) (h : OvInv name P Q fd) :
    OvInv name P Q (l.foldl (reg_default_step st) fd) := by
  induction l generalizing fd with
  | nil => exact h
  | cons g rest ih =>
    rw [List.foldl_cons]
    exact ih _ (fun x hx => hval x (List.mem_cons_of_mem g hx))
      (ovinv_field_handler st g true name P Q hPQ hcountry fd
        (hval g (List.mem_cons_self g rest)) h)

/-- A successful `add_custom_field` is exactly one `add_field`. -/
theorem add_custom_field_ok_shape (cf : CustomForm) (fd : FormDescription)
    (c : CustomField) (fd' : FormDescription)
    (hok : add_custom_field cf fd c = Except.ok fd') :
    ∃ r, fd' = fd.add_field r := by
  unfold add_custom_field at hok
  dsimp only at hok
  rcases hopt : ((assocLookup cf.serialization_options c.name).getD
      { field_type := none, defaultValue := none,
        include_default_option := none }).field_type with _ | t
  · rw [hopt] at hok
    rcases hmt : c.mapped_field_type with _ | t
    · rw [hmt] at hok
      cases hok
    · rw [hmt] at hok
      split at hok
      · cases hok
      · split at hok
        · cases hok
        · rw [Except.ok.injEq] at hok
          exact ⟨_, hok.symm⟩
  · rw [hopt] at hok
    split at hok
    · cases hok
    · split at hok
      · cases hok
      · rw [Except.ok.injEq] at hok
        exact ⟨_, hok.symm⟩

theorem ovinv_custom_foldlM (cf : CustomForm) (l : List CustomField)
    (fd fd' : FormDescription)
    (name : String) (P : Override → Prop) (Q : FormField → Prop)
    (hPQ : ∀ (x : FormField) ov, P ov → Q (applyOverride x ov))
    (hok : l.foldlM (add_custom_field cf) fd = Except.ok fd')
    (h : OvInv name P Q fd) : OvInv name P Q fd' := by
  induction l generalizing fd with
  | nil =>
    have hok' : Except.ok fd = Except.ok fd' := hok
    rw [Except.ok.injEq] at hok'
    subst hok'
    exact h
  | cons c rest ih =>
    rw [List.foldlM_cons] at hok
    cases hc : add_custom_field cf fd c with
    | error e =>
      rw [hc, except_bind_error] at hok
      cases hok
    | ok fd1 =>
      rw [hc, except_bind_ok] at hok
      obtain ⟨r, hr⟩ := add_custom_field_ok_shape cf fd c fd1 hc
      subst hr
      exact ih _ hok (ovinv_add_field name P Q hPQ fd r h)

/-- The override invariant survives the whole of `registration_get`. -/
theorem ovinv_registration_get (st : ViewState) (ctx : TpaContext)
    (cf : Option CustomForm) (fd : FormDescription)
    (name : String) (P : Override → Prop) (Q : FormField → Prop)
    (hPQ : ∀ (x : FormField) ov, P ov → Q (applyOverride x ov))
    (hcountry : name = "country" →
      ∀ o (d : FieldDefault), P o → P (Override.merge o { defaultValue := some d }))
    (hordv : ∀ x ∈ st.field_order, x ∈ valid_fields)
    (h0 : OvInv name P Q (apply_third_party_auth_overrides ctx
      { method := "post", action := reverse "user_api_registration" }))
    (hget : registration_get st ctx cf = Except.ok fd) :
    OvInv name P Q fd := by
  rcases cf with _ | c
  · unfold registration_get at hget
    dsimp only at hget
    rw [Except.ok.injEq] at hget
    subst hget
    exact ovinv_foldl_order st st.field_order _ name P Q hPQ hcountry hordv h0
  · unfold registration_get at hget
    dsimp only at hget
    cases hfm : c.fields.foldlM (add_custom_field c)
        (DEFAULT_FIELDS.foldl (reg_default_step st)
          (apply_third_party_auth_overrides ctx
            { method := "post", action := reverse "user_api_registration" })) with
    | error e =>
      rw [hfm, except_bind_error] at hget
      cases hget
    | ok fd2 =>
      rw [hfm, except_bind_ok] at hget
      have hget' : Except.ok (EXTRA_FIELDS.foldl (reg_extra_step st) fd2) =
          Except.ok fd := hget
      rw [Except.ok.injEq] at hget'
      subst hget'
      refine ovinv_foldl_extra st EXTRA_FIELDS fd2 name P Q hPQ hcountry
        (fun x hx => mem_valid_of_extra hx) ?_
      refine ovinv_custom_foldlM c c.fields _ fd2 name P Q hPQ hfm ?_
      exact ovinv_foldl_default st DEFAULT_FIELDS _ name P Q hPQ hcountry
        (fun x hx => mem_valid_of_default hx) h0

end UserApi

namespace UserApi

/-! ### Characterizing `_apply_third_party_auth_overrides` -/

theorem override_field_properties_overrides (fd : FormDescription) (n : String)
    (ov : Override) :
    (fd.override_field_properties n ov).field_overrides =
      assocUpdate Override.merge fd.field_overrides n ov := rfl

/-- The override record stored for the password field forces these
properties (claim C7). -/
def password_ov_props (o : Override) : Prop :=
  o.defaultValue = some (.text "") ∧ o.field_type = some "hidden" ∧
  o.required = some false ∧ o.label = some "" ∧ o.instructions = some "" ∧
  o.restrictions = some []

/-- The properties claim C7 asserts of the password field itself. -/
def password_field_props (f : FormField) : Prop :=
  f.field_type = "hidden" ∧ f.defaultValue = .text "" ∧ f.required = false ∧
  f.label = "" ∧ f.instructions = "" ∧ f.restrictions = []

theorem password_hPQ (g : FormField) (ov : Override) (h : password_ov_props ov) :
    password_field_props (applyOverride g ov) := by
  obtain ⟨h1, h2, h3, h4, h5, h6⟩ := h
  exact ⟨by rw [applyOverride, h2]; rfl, by rw [applyOverride, h1]; rfl,
    by rw [applyOverride, h3]; rfl, by rw [applyOverride, h4]; rfl,
    by rw [applyOverride, h5]; rfl, by rw [applyOverride, h6]; rfl⟩

theorem password_ov_props_blanket : password_ov_props tpa_password_override :=
  ⟨rfl, rfl, rfl, rfl, rfl, rfl⟩

theorem password_ov_props_merge (o : Override) :
    password_ov_props (Override.merge o tpa_password_override) :=
  ⟨rfl, rfl, rfl, rfl, rfl, rfl⟩

/-- The hidden-and-blanked properties of claim C3, at the override level. -/
def hidden_ov_props (o : Override) : Prop :=
  o.field_type = some "hidden" ∧ o.label = some "" ∧ o.instructions = some ""

/-- The hidden-and-blanked properties of claim C3, at the field level. -/
def hidden_field_props (f : FormField) : Prop :=
  f.field_type = "hidden" ∧ f.label = "" ∧ f.instructions = ""

theorem hidden_hPQ (g : FormField) (ov : Override) (h : hidden_ov_props ov) :
    hidden_field_props (applyOverride g ov) := by
  obtain ⟨h1, h2, h3⟩ := h
  exact ⟨by rw [applyOverride, h1]; rfl, by rw [applyOverride, h2]; rfl,
    by rw [applyOverride, h3]; rfl⟩

theorem hidden_country_merge (o : Override) (d : FieldDefault)
    (h : hidden_ov_props o) :
    hidden_ov_props (Override.merge o { defaultValue := some d }) :=
  ⟨h.1, h.2.1, h.2.2⟩

/-- The override loop never touches the fields list. -/
theorem tpa_override_step_fields (d : List (String × String)) (hide : Bool)
    (fd : FormDescription) (g : String) :
    (tpa_override_step d hide fd g).fields = fd.fields := by
  rcases hl : assocLookup d g with _ | v
  · simp only [tpa_override_step, hl]
  · simp only [tpa_override_step, hl]
    split
    · rfl
    · rfl

theorem tpa_foldl_fields (d : List (String × String)) (hide : Bool)
    (l : List String) (fd : FormDescription) :
    (l.foldl (tpa_override_step d hide) fd).fields = fd.fields := by
  induction l generalizing fd with
  | nil => rfl
  | cons g rest ih =>
    rw [List.foldl_cons, ih, tpa_override_step_fields]

/-- A loop step for another field name does not change the stored override
of `name`. -/
theorem tpa_step_lookup_ne (d : List (String × String)) (hide : Bool)
    (fd : FormDescription) (g name : String) (hg : g ≠ name) :
    assocLookup (tpa_override_step d hide fd g).field_overrides name =
      assocLookup fd.field_overrides name := by
  rcases hl : assocLookup d g with _ | v
  · simp only [tpa_override_step, hl]
  · simp only [tpa_override_step, hl]
    split
    · rw [override_field_properties_overrides,
        assocLookup_update_ne _ _ _ _ _ (Ne.symm hg),
        override_field_properties_overrides,
        assocLookup_update_ne _ _ _ _ _ (Ne.symm hg)]
    · rw [override_field_properties_overrides,
        assocLookup_update_ne _ _ _ _ _ (Ne.symm hg)]

/-- A loop step on a field the provider overrides with a truthy value,
outside the terms-of-service/honor-code pair and in the hide-everything
case, stores a hidden-and-blanked override for it. -/
theorem tpa_step_establishes (d : List (String × String)) (hide : Bool)
    (fd : FormDescription) (g v : String)
    (hl : assocLookup d g = some v)
    (hcond : strMem ["terms_of_service", "honor_code"] g = false ∧ v ≠ "" ∧ hide = true) :
    ∃ ov, assocLookup (tpa_override_step d hide fd g).field_overrides g = some ov ∧
      hidden_ov_props ov := by
  simp only [tpa_override_step, hl]
  rw [if_pos hcond, override_field_properties_overrides, assocLookup_update_self]
  rcases assocLookup
      (fd.override_field_properties g (tpa_default_override v)).field_overrides g with _ | w
  · exact ⟨tpa_hide_override, rfl, rfl, rfl, rfl⟩
  · exact ⟨Override.merge w tpa_hide_override, rfl, rfl, rfl, rfl⟩

/-- Every loop step preserves a stored hidden-and-blanked override. -/
theorem tpa_step_preserves (d : List (String × String)) (hide : Bool)
    (fd : FormDescription) (g name : String)
    (h : ∃ ov, assocLookup fd.field_overrides name = some ov ∧ hidden_ov_props ov) :
    ∃ ov, assocLookup (tpa_override_step d hide fd g).field_overrides name = some ov ∧
      hidden_ov_props ov := by
  by_cases hg : g = name
  · subst hg
    obtain ⟨ov, hov, hP⟩ := h
    rcases hl : assocLookup d g with _ | v
    · simp only [tpa_override_step, hl]
      exact ⟨ov, hov, hP⟩
    · simp only [tpa_override_step, hl]
      split
      · rw [override_field_properties_overrides, assocLookup_update_self,
          override_field_properties_overrides, assocLookup_update_self, hov]
        exact ⟨_, rfl, rfl, rfl, rfl⟩
      · rw [override_field_properties_overrides, assocLookup_update_self, hov]
        exact ⟨_, rfl, hP.1, hP.2.1, hP.2.2⟩
  · rw [tpa_step_lookup_ne d hide fd g name hg]
    exact h

theorem tpa_foldl_preserves (d : List (String × String)) (hide : Bool)
    (l : List String) (fd : FormDescription) (name : String)
    (h : ∃ ov, assocLookup fd.field_overrides name = some ov ∧ hidden_ov_props ov) :
    ∃ ov, assocLookup (l.foldl (tpa_override_step d hide) fd).field_overrides name =
      some ov ∧ hidden_ov_props ov := by
  induction l generalizing fd with
  | nil => exact h
  | cons g rest ih =>
    rw [List.foldl_cons]
    exact ih _ (tpa_step_preserves d hide fd g name h)

theorem tpa_foldl_establishes (d : List (String × String)) (hide : Bool)
    (l : List String) (fd : FormDescription) (name v : String)
    (hname : name ∈ l)
    (hl : assocLookup d name = some v)
    (hcond : strMem ["terms_of_service", "honor_code"] name = false ∧ v ≠ "" ∧ hide = true) :
    ∃ ov, assocLookup (l.foldl (tpa_override_step d hide) fd).field_overrides name =
      some ov ∧ hidden_ov_props ov := by
  induction l generalizing fd with
  | nil => cases hname
  | cons g rest ih =>
    rw [List.foldl_cons]
    rcases List.mem_cons.mp hname with hg | hrest
    · subst hg
      exact tpa_foldl_preserves d hide rest _ name
        (tpa_step_establishes d hide fd name v hl hcond)
    · exact ih _ hrest

/-- The blanket password override keeps a hidden-and-blanked override for
any name (for the password itself it re-establishes it). -/
theorem blanket_preserves_hidden (fd : FormDescription) (name : String)
    (h : ∃ ov, assocLookup fd.field_overrides name = some ov ∧ hidden_ov_props ov) :
    ∃ ov, assocLookup
        (fd.override_field_properties "password" tpa_password_override).field_overrides
        name = some ov ∧ hidden_ov_props ov := by
  by_cases hn : "password" = name
  · subst hn
    obtain ⟨ov, hov, _⟩ := h
    rw [override_field_properties_overrides, assocLookup_update_self, hov]
    exact ⟨_, rfl, rfl, rfl, rfl⟩
  · rw [override_field_properties_overrides,
      assocLookup_update_ne _ _ _ _ _ (fun hh => hn hh.symm)]
    exact h

end UserApi

namespace UserApi

/-! ### The override invariant holds right after the third-party overrides -/

/-- After the loop, the blanket password override, and the social-auth
marker field, the password override invariant holds (the body of
`_apply_third_party_auth_overrides` with a current provider). -/
theorem tpa_body_password_ovinv (d : List (String × String)) (hide : Bool)
    (base : FormDescription) (hfields : base.fields = [])
    (sf : FormField) (hsf : sf.name ≠ "password") :
    OvInv "password" password_ov_props password_field_props
      ((((DEFAULT_FIELDS ++ EXTRA_FIELDS).foldl (tpa_override_step d hide)
          base).override_field_properties "password"
            tpa_password_override).add_field sf) := by
  constructor
  · rw [add_field_field_overrides, override_field_properties_overrides,
      assocLookup_update_self]
    rcases assocLookup ((DEFAULT_FIELDS ++ EXTRA_FIELDS).foldl
        (tpa_override_step d hide) base).field_overrides "password" with _ | w
    · exact ⟨tpa_password_override, rfl, password_ov_props_blanket⟩
    · exact ⟨Override.merge w tpa_password_override, rfl, password_ov_props_merge w⟩
  · intro fld hfld hname
    rw [add_field_fields] at hfld
    have hfo : (((DEFAULT_FIELDS ++ EXTRA_FIELDS).foldl (tpa_override_step d hide)
        base).override_field_properties "password" tpa_password_override).fields = [] := by
      rw [override_field_properties_fields, tpa_foldl_fields, hfields]
    rw [hfo, List.nil_append, List.mem_singleton] at hfld
    subst hfld
    exact absurd ((applyOverrideOpt_name _ _).symm.trans hname) hsf

/-- With an enabled third-party pipeline carrying a registered provider,
the password override invariant holds after
`_apply_third_party_auth_overrides`. -/
theorem tpa_password_ovinv (ctx : TpaContext) (provider : ProviderInfo)
    (hen : ctx.third_party_auth_enabled = true) (hrun : ctx.running_pipeline = true)
    (hprov : ctx.current_provider = some provider) :
    OvInv "password" password_ov_props password_field_props
      (apply_third_party_auth_overrides ctx
        { method := "post", action := reverse "user_api_registration" }) := by
  unfold apply_third_party_auth_overrides
  rw [if_pos ⟨hen, hrun⟩, hprov]
  refine tpa_body_password_ovinv provider.register_form_data
    (provider.skip_registration_form && ctx.enterprise_customer) _ rfl _ ?_
  intro hh
  simp at hh

/-- For a field the provider overrides with a truthy value, outside the
terms-of-service/honor-code pair and in the hide-everything case, the
hidden-and-blanked override invariant holds after the body of
`_apply_third_party_auth_overrides`. -/
theorem tpa_body_hidden_ovinv (d : List (String × String)) (hide : Bool)
    (base : FormDescription) (hfields : base.fields = [])
    (f v : String)
    (hfmem : f ∈ DEFAULT_FIELDS ++ EXTRA_FIELDS)
    (hnot : strMem ["terms_of_service", "honor_code"] f = false)
    (hov : assocLookup d f = some v) (hv : v ≠ "") (hh : hide = true)
    (sf : FormField) (hsf : sf.name = "social_auth_provider") :
    OvInv f hidden_ov_props hidden_field_props
      ((((DEFAULT_FIELDS ++ EXTRA_FIELDS).foldl (tpa_override_step d hide)
          base).override_field_properties "password"
            tpa_password_override).add_field sf) := by
  constructor
  · rw [add_field_field_overrides]
    exact blanket_preserves_hidden _ f
      (tpa_foldl_establishes d hide (DEFAULT_FIELDS ++ EXTRA_FIELDS) base f v
        hfmem hov ⟨hnot, hv, hh⟩)
  · intro fld hfld hname
    rw [add_field_fields] at hfld
    have hfo : (((DEFAULT_FIELDS ++ EXTRA_FIELDS).foldl (tpa_override_step d hide)
        base).override_field_properties "password" tpa_password_override).fields = [] := by
      rw [override_field_properties_fields, tpa_foldl_fields, hfields]
    rw [hfo, List.nil_append, List.mem_singleton] at hfld
    subst hfld
    have hfs : "social_auth_provider" = f :=
      hsf.symm.trans ((applyOverrideOpt_name _ _).symm.trans hname)
    rw [← hfs] at hfmem
    exact absurd hfmem (by decide)

theorem tpa_apply_hidden_ovinv (ctx : TpaContext) (provider : ProviderInfo)
    (f v : String)
    (hen : ctx.third_party_auth_enabled = true) (hrun : ctx.running_pipeline = true)
    (hprov : ctx.current_provider = some provider)
    (hskip : provider.skip_registration_form = true)
    (hent : ctx.enterprise_customer = true)
    (hfmem : f ∈ DEFAULT_FIELDS ++ EXTRA_FIELDS)
    (hnot : strMem ["terms_of_service", "honor_code"] f = false)
    (hov : assocLookup provider.register_form_data f = some v) (hv : v ≠ "") :
    OvInv f hidden_ov_props hidden_field_props
      (apply_third_party_auth_overrides ctx
        { method := "post", action := reverse "user_api_registration" }) := by
  unfold apply_third_party_auth_overrides
  rw [if_pos ⟨hen, hrun⟩, hprov]
  refine tpa_body_hidden_ovinv provider.register_form_data
    (provider.skip_registration_form && ctx.enterprise_customer) _ rfl f v
    hfmem hnot hov hv (by rw [hskip, hent]; rfl) _ ?_
  rfl

/-- Under any third-party-auth context, the generated form contains a field
for every default name of the field order. -/
theorem registration_get_contains_default (st : ViewState) (ctx : TpaContext)
    (cf : Option CustomForm) (fd : FormDescription) (name : String)
    (hd : name ∈ DEFAULT_FIELDS)
    (hordv : ∀ x ∈ st.field_order, x ∈ valid_fields)
    (horder : name ∈ st.field_order)
    (hget : registration_get st ctx cf = Except.ok fd) :
    ∃ fld ∈ fd.fields, fld.name = name := by
  rcases cf with _ | c
  · unfold registration_get at hget
    dsimp only at hget
    rw [Except.ok.injEq] at hget
    subst hget
    exact foldl_order_adds_name st st.field_order _ name hordv horder
      ((strMem_iff _ _).mpr hd)
  · unfold registration_get at hget
    dsimp only at hget
    cases hfm : c.fields.foldlM (add_custom_field c)
        (DEFAULT_FIELDS.foldl (reg_default_step st)
          (apply_third_party_auth_overrides ctx
            { method := "post", action := reverse "user_api_registration" })) with
    | error e =>
      rw [hfm, except_bind_error] at hget
      cases hget
    | ok fd2 =>
      rw [hfm, except_bind_ok] at hget
      have hget' : Except.ok (EXTRA_FIELDS.foldl (reg_extra_step st) fd2) =
          Except.ok fd := hget
      rw [Except.ok.injEq] at hget'
      subst hget'
      obtain ⟨fld, hf1, hf2⟩ :=
        foldl_default_adds_name st DEFAULT_FIELDS
          (apply_third_party_auth_overrides ctx
            { method := "post", action := reverse "user_api_registration" }) name
          (fun x hx => mem_valid_of_default hx) hd
      obtain ⟨hmem2, _⟩ := custom_foldlM_mem c c.fields _ fd2 hfm
      exact ⟨fld, foldl_extra_mem st EXTRA_FIELDS fd2 fld
        (fun x hx => mem_valid_of_extra hx) (hmem2 fld hf1), hf2⟩

end UserApi

namespace UserApi

/-! ### Claims C7 and C3 -/

/-- C7: with third-party auth enabled, a running pipeline and a registered
current provider, the generated registration form's password field is
overridden to a hidden field with empty default, not required, and blanked
label, instructions and restrictions. -/
theorem tpa_password_field_hidden (extra : List (String × String))
    (order : List String) (st : ViewState) (ctx : TpaContext)
    (provider : ProviderInfo) (cf : Option CustomForm) (fd : FormDescription)
    (hinit : registration_init extra order = Except.ok st)
    (hen : ctx.third_party_auth_enabled = true) (hrun : ctx.running_pipeline = true)
    (hprov : ctx.current_provider = some provider)
    (hget : registration_get st ctx cf = Except.ok fd) :
    (∃ fld ∈ fd.fields, fld.name = "password") ∧
    ∀ fld ∈ fd.fields, fld.name = "password" →
      fld.field_type = "hidden" ∧ fld.defaultValue = FieldDefault.text "" ∧
      fld.required = false ∧ fld.label = "" ∧ fld.instructions = "" ∧
      fld.restrictions = [] := by
  obtain ⟨_, hss⟩ := registration_init_ok extra order st hinit
  have hordv : ∀ x ∈ st.field_order, x ∈ valid_fields :=
    fun x hx => sameSet_mem_rev hss hx
  have hd : "password" ∈ DEFAULT_FIELDS := by decide
  constructor
  · exact registration_get_contains_default st ctx cf fd "password" hd hordv
      (sameSet_mem hss (mem_valid_of_default hd)) hget
  · have hinv := ovinv_registration_get st ctx cf fd "password" password_ov_props
      password_field_props password_hPQ
      (fun hc => absurd hc (by decide)) hordv
      (tpa_password_ovinv ctx provider hen hrun hprov) hget
    exact hinv.2

/-- Witness for C7 at a concrete provider without form data. -/
theorem tpa_password_field_hidden_witness :
    ∃ st fd, registration_init [] [] = Except.ok st ∧
      registration_get st
        { third_party_auth_enabled := true, running_pipeline := true,
          current_provider := some
            { name := "ProvX", skip_registration_form := false,
              register_form_data := [] },
          enterprise_customer := false } none = Except.ok fd ∧
      ((∃ fld ∈ fd.fields, fld.name = "password") ∧
       ∀ fld ∈ fd.fields, fld.name = "password" →
         fld.field_type = "hidden" ∧ fld.defaultValue = FieldDefault.text "" ∧
         fld.required = false ∧ fld.label = "" ∧ fld.instructions = "" ∧
         fld.restrictions = []) :=
  ⟨_, _, rfl, rfl,
    tpa_password_field_hidden [] [] _ _ _ none _ rfl rfl rfl rfl rfl⟩

/-- C3 (counterexample): in an enterprise context with a provider that
skips the registration form and supplies only an email override, the
"name" field of the generated form keeps its ordinary type and label —
so not every field other than the terms-of-service checkbox is hidden
and blanked. -/
theorem tpa_enterprise_does_not_hide_all_fields :
    ∃ st, registration_init [] [] = Except.ok st ∧
      (registration_get st
        { third_party_auth_enabled := true, running_pipeline := true,
          current_provider := some
            { name := "ProvX", skip_registration_form := true,
              register_form_data := [("email", "jane@example.com")] },
          enterprise_customer := true } none).map
        (fun fd => (fd.fields.find? (fun fld => fld.name == "name")).map
          (fun fld => (fld.field_type, fld.label))) =
        Except.ok (some ("text", "Full Name")) ∧
      ("text" : String) ≠ "hidden" :=
  ⟨_, rfl, rfl, by decide⟩

/-- C3 (amended): in the enterprise skip-registration case, every field of
the generated form — outside the terms-of-service/honor-code pair — for
which the provider supplied a truthy (non-empty) override value is hidden
with blanked label and instructions. -/
theorem tpa_enterprise_hides_only_overridden (extra : List (String × String))
    (order : List String) (st : ViewState) (ctx : TpaContext)
    (provider : ProviderInfo) (cf : Option CustomForm) (fd : FormDescription)
    (f v : String)
    (hinit : registration_init extra order = Except.ok st)
    (hen : ctx.third_party_auth_enabled = true) (hrun : ctx.running_pipeline = true)
    (hprov : ctx.current_provider = some provider)
    (hskip : provider.skip_registration_form = true)
    (hent : ctx.enterprise_customer = true)
    (hfmem : f ∈ DEFAULT_FIELDS ++ EXTRA_FIELDS)
    (hnot : strMem ["terms_of_service", "honor_code"] f = false)
    (hov : assocLookup provider.register_form_data f = some v)
    (hv : v ≠ "")
    (hget : registration_get st ctx cf = Except.ok fd) :
    ∀ fld ∈ fd.fields, fld.name = f →
      fld.field_type = "hidden" ∧ fld.label = "" ∧ fld.instructions = "" := by
  obtain ⟨_, hss⟩ := registration_init_ok extra order st hinit
  have hinv := ovinv_registration_get st ctx cf fd f hidden_ov_props hidden_field_props
    hidden_hPQ (fun _ o d hP => hidden_country_merge o d hP)
    (fun x hx => sameSet_mem_rev hss hx)
    (tpa_apply_hidden_ovinv ctx provider f v hen hrun hprov hskip hent
      hfmem hnot hov hv) hget
  exact hinv.2

/-- Witness for the amended C3: the provider-overridden email field is
hidden and blanked in the generated form. -/
theorem tpa_enterprise_hides_only_overridden_witness :
    ∃ st fd, registration_init [] [] = Except.ok st ∧
      registration_get st
        { third_party_auth_enabled := true, running_pipeline := true,
          current_provider := some
            { name := "ProvX", skip_registration_form := true,
              register_form_data := [("email", "jane@example.com")] },
          enterprise_customer := true } none = Except.ok fd ∧
      ∀ fld ∈ fd.fields, fld.name = "email" →
        fld.field_type = "hidden" ∧ fld.label = "" ∧ fld.instructions = "" :=
  ⟨_, _, rfl, rfl,
    tpa_enterprise_hides_only_overridden [] [] _
      { third_party_auth_enabled := true, running_pipeline := true,
        current_provider := some
          { name := "ProvX", skip_registration_form := true,
            register_form_data := [("email", "jane@example.com")] },
        enterprise_customer := true }
      { name := "ProvX", skip_registration_form := true,
        register_form_data := [("email", "jane@example.com")] }
      none _ "email" "jane@example.com"
      rfl rfl rfl rfl rfl rfl (by decide) rfl rfl (by decide) rfl⟩

end UserApi
